import Mathlib

/-!
Verification of the Kick Stream Monitor client-side data layer.

Shallow embedding of the JavaScript sources:
* `FilterManager` (filter/sort engine with optional secondary index),
* `HistoryManager` (session-history aggregator),
* `StreamerManager` (batched fetch pipeline and sliding-window rate limiter),
* `StorageManager` (persistent store adapter with export/import).

Timestamps are naturals (milliseconds); `Date.now()` becomes an explicit
`now` parameter.  JavaScript `x || 0` defaults are folded into total `Nat`
fields; genuinely nullable fields become `Option`.
-/

namespace KickMonitor

/-- An entity snapshot as produced by `transformStreamerData` in
`streamerManager.js`.  Fields not read by any embedded operation are omitted. -/
structure Streamer where
  name : String
  displayName : String
  live : Bool
  title : String
  viewers : Nat
  category : Option String
  followers : Nat
  language : String
  streamStartTime : Option Nat
  lastSeen : Option Nat
  isFavorite : Bool
  deriving Repr, DecidableEq

/-- The `this.filters` record of `FilterManager`. -/
structure Filters where
  status : String
  viewers : String
  category : String
  search : String
  duration : String
  language : String
  deriving Repr, DecidableEq

/-- `FilterManager` state: the filter record plus sort key and direction. -/
structure FM where
  filters : Filters
  sortBy : String
  sortDirection : String
  deriving Repr, DecidableEq

/-- Default filter state from the `FilterManager` constructor. -/
def defaultFilters : Filters :=
  { status := "all", viewers := "all", category := "all"
    search := "", duration := "all", language := "all" }

/-- `applyStatusFilter`: switch on the status filter; `all` and unknown
values fall through to the unfiltered list. -/
def applyStatusFilter (f : String) (l : List Streamer) : List Streamer :=
  match f with
  | "live" => l.filter (fun s => s.live)
  | "offline" => l.filter (fun s => !s.live)
  | "favorites" => l.filter (fun s => s.isFavorite)
  | _ => l

/-- The per-bucket membership predicate of `applyViewerFilter`
(`viewers >= 0` is automatic for `Nat`); unknown bucket strings keep
everything (the `default: return true` branch). -/
def viewerPred (r : String) (v : Nat) : Bool :=
  match r with
  | "0-100" => decide (v ≤ 100)
  | "100-500" => decide (100 < v ∧ v ≤ 500)
  | "500-1000" => decide (500 < v ∧ v ≤ 1000)
  | "1000-5000" => decide (1000 < v ∧ v ≤ 5000)
  | "5000+" => decide (5000 < v)
  | _ => true

/-- `applyViewerFilter`. -/
def applyViewerFilter (r : String) (l : List Streamer) : List Streamer :=
  if r = "all" then l else l.filter (fun s => viewerPred r s.viewers)

/-- `applyCategoryFilter`: strict equality with the streamer category
(`null === c` is false for a string `c`). -/
def applyCategoryFilter (c : String) (l : List Streamer) : List Streamer :=
  if c = "all" then l else l.filter (fun s => s.category == some c)

/-- JavaScript string truthiness: keep a string only if it is nonempty. -/
def truthyStr (s : String) : Option String :=
  if s = "" then none else some s

/-- The `[name, displayName, title, category].filter(Boolean).join(' ')`
searchable text of a streamer. -/
def searchableText (s : Streamer) : String :=
  String.intercalate " "
    (([truthyStr s.name, truthyStr s.displayName, truthyStr s.title,
       s.category.bind truthyStr]).filterMap id)

/-- Substring test on character lists (JavaScript `String.includes`). -/
def charInfix (needle : List Char) : List Char → Bool
  | [] => needle.isEmpty
  | c :: rest => needle.isPrefixOf (c :: rest) || charInfix needle rest

/-- JavaScript `hay.includes(needle)`. -/
def strIncludes (hay needle : String) : Bool :=
  charInfix needle.toList hay.toList

/-- JavaScript `toLowerCase`, modelled per character (kept structural so
concrete runs evaluate). -/
def lowerStr (s : String) : String := String.mk (s.data.map Char.toLower)

/-- JavaScript `trim`: strip whitespace from both ends. -/
def trimStr (s : String) : String :=
  String.mk
    (((s.data.dropWhile Char.isWhitespace).reverse.dropWhile
        Char.isWhitespace).reverse)

/-- `applySearchFilter`: lowercase/trim the query, empty query matches all. -/
def applySearchFilter (q : String) (l : List Streamer) : List Streamer :=
  let query := trimStr (lowerStr q)
  if query = "" then l
  else l.filter (fun s => strIncludes (lowerStr (searchableText s)) query)

/-- JavaScript truthiness of `streamer.streamStartTime` (`0` is falsy). -/
def startTruthy (s : Streamer) : Bool :=
  match s.streamStartTime with
  | some t => t != 0
  | none => false

/-- The per-streamer predicate of `applyDurationFilter`.  The float
comparisons `hours < 1`, `1 <= hours <= 4`, `hours > 4` on
`hours = dur / 3600000` are expressed exactly on the integer `dur`. -/
def durationPred (d : String) (now : Nat) (s : Streamer) : Bool :=
  if !(s.live && startTruthy s) then d == "offline"
  else
    let dur : Int := (now : Int) - (s.streamStartTime.getD 0 : Nat)
    match d with
    | "<1h" => decide (dur < 3600000)
    | "1-4h" => decide (3600000 ≤ dur ∧ dur ≤ 14400000)
    | "4h+" => decide (14400000 < dur)
    | "offline" => !s.live
    | _ => true

/-- `applyDurationFilter`. -/
def applyDurationFilter (d : String) (now : Nat) (l : List Streamer) :
    List Streamer :=
  if d = "all" then l else l.filter (fun s => durationPred d now s)

/-- `applyLanguageFilter`. -/
def applyLanguageFilter (lang : String) (l : List Streamer) : List Streamer :=
  if lang = "all" then l else l.filter (fun s => s.language == lang)

/-- Three-way comparison standing in for `String.localeCompare`. -/
def strCmp (a b : String) : Int :=
  if a < b then -1 else if b < a then 1 else 0

/-- JavaScript `boolA - boolB` (booleans coerce to 0/1). -/
def bSub (a b : Bool) : Int :=
  (if a then 1 else 0) - (if b then 1 else 0)

/-- JavaScript subtraction of two naturals, exact in `Int`. -/
def natSub (a b : Nat) : Int := (a : Int) - (b : Int)

/-- The live duration used by the `duration` sort key:
`a.streamStartTime ? Date.now() - a.streamStartTime : 0`. -/
def sortDuration (now : Nat) (s : Streamer) : Int :=
  if startTruthy s then (now : Int) - (s.streamStartTime.getD 0 : Nat) else 0

/-- The comparator body of `applySorting` (the `comparison` value before
the direction sign is applied). -/
def jsComparison (sortBy : String) (now : Nat) (a b : Streamer) : Int :=
  match sortBy with
  | "status" =>
      if a.live ≠ b.live then bSub b.live a.live
      else if a.live && b.live then natSub b.viewers a.viewers
      else strCmp a.name b.name
  | "viewers" => natSub b.viewers a.viewers
  | "name" => strCmp a.displayName b.displayName
  | "category" => strCmp (a.category.getD "") (b.category.getD "")
  | "duration" =>
      if a.live && b.live then sortDuration now b - sortDuration now a
      else if a.live ≠ b.live then bSub b.live a.live
      else 0
  | "offline-time" =>
      if !a.live && !b.live then natSub (b.lastSeen.getD 0) (a.lastSeen.getD 0)
      else if a.live ≠ b.live then bSub a.live b.live
      else 0
  | "followers" => natSub b.followers a.followers
  | _ => 0

/-- Insert into a comparator-sorted list, keeping earlier elements first on
ties (`cmp x y ≤ 0` places `x` before `y`). -/
def insertByCmp (cmp : Streamer → Streamer → Int) (x : Streamer) :
    List Streamer → List Streamer
  | [] => [x]
  | y :: t => if cmp x y ≤ 0 then x :: y :: t else y :: insertByCmp cmp x t

/-- Stable comparator sort modelling the (stable) `Array.prototype.sort`. -/
def sortByCmp (cmp : Streamer → Streamer → Int) (l : List Streamer) :
    List Streamer :=
  l.foldr (insertByCmp cmp) []

/-- `sortDirection === 'asc' ? 1 : -1`. -/
def dirVal (d : String) : Int := if d = "asc" then 1 else -1

/-- `applySorting`: stable sort by `comparison * direction`. -/
def applySorting (fm : FM) (now : Nat) (l : List Streamer) : List Streamer :=
  sortByCmp (fun a b => jsComparison fm.sortBy now a b * dirVal fm.sortDirection) l

/-- `FilterManager.applyFilters`: the linear-scan pipeline
status → viewers → category → search → duration → language → sort
(the initial `[...streamers]` copy is value semantics in Lean). -/
def applyFilters (fm : FM) (now : Nat) (l : List Streamer) : List Streamer :=
  applySorting fm now
    (applyLanguageFilter fm.filters.language
      (applyDurationFilter fm.filters.duration now
        (applySearchFilter fm.filters.search
          (applyCategoryFilter fm.filters.category
            (applyViewerFilter fm.filters.viewers
              (applyStatusFilter fm.filters.status l))))))

/-- The bucket assignment of `getViewerRangeStats` (if/else-if chain). -/
def statsBucket (v : Nat) : String :=
  if v ≤ 100 then "0-100"
  else if v ≤ 500 then "100-500"
  else if v ≤ 1000 then "500-1000"
  else if v ≤ 5000 then "1000-5000"
  else "5000+"

/-- The five viewer-range bucket labels. -/
def viewerBuckets : List String :=
  ["0-100", "100-500", "500-1000", "1000-5000", "5000+"]

lemma viewerPred_b1 (v : Nat) : viewerPred "0-100" v = decide (v ≤ 100) := rfl

lemma viewerPred_b2 (v : Nat) :
    viewerPred "100-500" v = decide (100 < v ∧ v ≤ 500) := rfl

lemma viewerPred_b3 (v : Nat) :
    viewerPred "500-1000" v = decide (500 < v ∧ v ≤ 1000) := rfl

lemma viewerPred_b4 (v : Nat) :
    viewerPred "1000-5000" v = decide (1000 < v ∧ v ≤ 5000) := rfl

lemma viewerPred_b5 (v : Nat) : viewerPred "5000+" v = decide (5000 < v) := rfl

/-- Claim C5: for every non-negative viewer count `v`, `v` satisfies the
membership predicate of exactly one of the five buckets, the edge value 100
lies in the `0-100` bucket, 101 lies in the `100-500` bucket, and the
`getViewerRangeStats` if-chain assigns `v` to a bucket whose predicate it
satisfies. -/
theorem viewer_bucket_partition (v : Nat) :
    (viewerBuckets.countP (fun r => viewerPred r v)) = 1 ∧
    viewerPred "0-100" 100 = true ∧
    viewerPred "100-500" 101 = true ∧
    statsBucket v ∈ viewerBuckets ∧
    viewerPred (statsBucket v) v = true := by
  refine ⟨?_, by decide, by decide, ?_, ?_⟩
  · simp only [viewerBuckets, List.countP_cons, List.countP_nil,
      viewerPred_b1, viewerPred_b2, viewerPred_b3, viewerPred_b4, viewerPred_b5]
    split_ifs <;> simp_all <;> omega
  · unfold statsBucket viewerBuckets
    split_ifs <;> simp
  · unfold statsBucket
    split_ifs with h1 h2 h3 h4
    · rw [viewerPred_b1]; simpa using h1
    · rw [viewerPred_b2]; simp; omega
    · rw [viewerPred_b3]; simp; omega
    · rw [viewerPred_b4]; simp; omega
    · rw [viewerPred_b5]; simp; omega

/-! ### C10: `getFilteredCount` restores the filter state -/

/-- `this.filters[filterType] = filterValue` for the six filter fields
(an unknown `filterType` writes an expando property that no filter reads,
so it is invisible in this model). -/
def setFilterField (f : Filters) (ty v : String) : Filters :=
  match ty with
  | "status" => { f with status := v }
  | "viewers" => { f with viewers := v }
  | "category" => { f with category := v }
  | "search" => { f with search := v }
  | "duration" => { f with duration := v }
  | "language" => { f with language := v }
  | _ => f

/-- `FilterManager.getFilteredCount`: save `{...this.filters}`, override one
field, run `applyFilters`, then restore the saved copy.  Returns the
post-call manager state together with the count. -/
def getFilteredCount (fm : FM) (ty v : String) (l : List Streamer)
    (now : Nat) : FM × Nat :=
  let tempFilters := fm.filters
  let fm1 : FM := { fm with filters := setFilterField fm.filters ty v }
  let count := (applyFilters fm1 now l).length
  ({ fm1 with filters := tempFilters }, count)

/-- Claim C10: `getFilteredCount` leaves the whole `FilterManager` state
(all filter fields, sort key and direction) exactly as it was before the
call, while the returned count is the length of `applyFilters` run with the
single overridden field. -/
theorem getFilteredCount_frame (fm : FM) (ty v : String) (l : List Streamer)
    (now : Nat) :
    (getFilteredCount fm ty v l now).1 = fm ∧
    (getFilteredCount fm ty v l now).2 =
      (applyFilters { fm with filters := setFilterField fm.filters ty v }
        now l).length := by
  constructor <;> rfl

/-! ### C6: `applyFilters` does not mutate its input and returns no new items -/

lemma insertByCmp_perm (cmp : Streamer → Streamer → Int) (x : Streamer)
    (l : List Streamer) : List.Perm (insertByCmp cmp x l) (x :: l) := by
  induction l with
  | nil => simp [insertByCmp]
  | cons y t ih =>
      unfold insertByCmp
      split
      · exact List.Perm.refl _
      · exact (List.Perm.cons y ih).trans (List.Perm.swap x y t)

lemma sortByCmp_perm (cmp : Streamer → Streamer → Int) (l : List Streamer) :
    List.Perm (sortByCmp cmp l) l := by
  induction l with
  | nil => exact List.Perm.refl _
  | cons a t ih =>
      exact (insertByCmp_perm cmp a (sortByCmp cmp t)).trans (ih.cons a)

lemma mem_applySorting (fm : FM) (now : Nat) (l : List Streamer)
    (x : Streamer) (h : x ∈ applySorting fm now l) : x ∈ l :=
  (sortByCmp_perm _ l).mem_iff.mp h

lemma mem_applyStatusFilter (f : String) (l : List Streamer) (x : Streamer)
    (h : x ∈ applyStatusFilter f l) : x ∈ l := by
  unfold applyStatusFilter at h
  split at h <;> first
    | exact List.mem_of_mem_filter h
    | exact h

lemma mem_applyViewerFilter (r : String) (l : List Streamer) (x : Streamer)
    (h : x ∈ applyViewerFilter r l) : x ∈ l := by
  unfold applyViewerFilter at h
  split at h
  · exact h
  · exact List.mem_of_mem_filter h

lemma mem_applyCategoryFilter (c : String) (l : List Streamer) (x : Streamer)
    (h : x ∈ applyCategoryFilter c l) : x ∈ l := by
  unfold applyCategoryFilter at h
  split at h
  · exact h
  · exact List.mem_of_mem_filter h

lemma mem_applySearchFilter (q : String) (l : List Streamer) (x : Streamer)
    (h : x ∈ applySearchFilter q l) : x ∈ l := by
  simp only [applySearchFilter] at h
  split at h
  · exact h
  · exact List.mem_of_mem_filter h

lemma mem_applyDurationFilter (d : String) (now : Nat) (l : List Streamer)
    (x : Streamer) (h : x ∈ applyDurationFilter d now l) : x ∈ l := by
  unfold applyDurationFilter at h
  split at h
  · exact h
  · exact List.mem_of_mem_filter h

lemma mem_applyLanguageFilter (lang : String) (l : List Streamer)
    (x : Streamer) (h : x ∈ applyLanguageFilter lang l) : x ∈ l := by
  unfold applyLanguageFilter at h
  split at h
  · exact h
  · exact List.mem_of_mem_filter h

/-- `applyFilters` together with the post-call value of its input array.
The source first copies the input (`let filtered = [...streamers]`); every
subsequent stage either returns that copy, a fresh `Array.filter` result, or
(for `applySorting`) sorts one of those arrays in place — the caller's array
is never written, so it is returned unchanged alongside the result. -/
def applyFiltersTracked (fm : FM) (now : Nat) (l : List Streamer) :
    List Streamer × List Streamer :=
  (l, applyFilters fm now l)

/-- Claim C6: `applyFilters` leaves its input list unchanged (same elements
in the same order after the call) and every element of the returned list is
an element of the input list. -/
theorem applyFilters_frame (fm : FM) (now : Nat) (l : List Streamer) :
    (applyFiltersTracked fm now l).1 = l ∧
    ∀ x ∈ (applyFiltersTracked fm now l).2, x ∈ l := by
  refine ⟨rfl, fun x hx => ?_⟩
  exact mem_applyStatusFilter _ _ _
    (mem_applyViewerFilter _ _ _
      (mem_applyCategoryFilter _ _ _
        (mem_applySearchFilter _ _ _
          (mem_applyDurationFilter _ _ _ _
            (mem_applyLanguageFilter _ _ _
              (mem_applySorting _ _ _ _ hx))))))

/-- Witness for C6 at a concrete input. -/
theorem applyFilters_frame_witness :
    (applyFiltersTracked
        { filters := defaultFilters, sortBy := "status",
          sortDirection := "desc" } 0 []).1 = [] ∧
    ∀ x ∈ (applyFiltersTracked
        { filters := defaultFilters, sortBy := "status",
          sortDirection := "desc" } 0 []).2, x ∈ ([] : List Streamer) :=
  applyFilters_frame _ 0 []

/-! ### C2: the index-accelerated `quickFilter` path vs `applyFilters` -/

/-- Positions (in iteration order) of the streamers satisfying `p`; this is
what the `forEach((streamer, i) => ... push(i))` loops of
`createFilterIndex` produce for a membership condition `p`. -/
def idxWhere (p : Streamer → Bool) (l : List Streamer) : List Nat :=
  (l.enum.filter (fun x => p x.2)).map (fun x => x.1)

/-- JavaScript truthiness of `streamer.category` (`null` and `''` falsy). -/
def catTruthy (s : Streamer) : Bool := s.category.getD "" != ""

/-- The secondary index built by `FilterManager.createFilterIndex`. -/
structure FilterIndex where
  byStatusLive : List Nat
  byStatusOffline : List Nat
  byCategory : String → List Nat
  byViewerRange : String → List Nat

/-- `createFilterIndex`: status, category and viewer-bucket position lists.
`byCategory` only indexes truthy categories; `byViewerRange` mirrors the
if/else-if bucket chain; lookups of keys never inserted give `[]`
(JavaScript `undefined || []`). -/
def createFilterIndex (l : List Streamer) : FilterIndex :=
  { byStatusLive := idxWhere (fun s => s.live) l
    byStatusOffline := idxWhere (fun s => !s.live) l
    byCategory := fun c =>
      idxWhere (fun s => catTruthy s && (s.category == some c)) l
    byViewerRange := fun r =>
      match r with
      | "0-100" => idxWhere (fun s => decide (s.viewers ≤ 100)) l
      | "100-500" =>
          idxWhere (fun s => !decide (s.viewers ≤ 100) && decide (s.viewers ≤ 500)) l
      | "500-1000" =>
          idxWhere (fun s => !decide (s.viewers ≤ 500) && decide (s.viewers ≤ 1000)) l
      | "1000-5000" =>
          idxWhere (fun s => !decide (s.viewers ≤ 1000) && decide (s.viewers ≤ 5000)) l
      | "5000+" => idxWhere (fun s => !decide (s.viewers ≤ 5000)) l
      | _ => [] }

/-- `index.byStatus[status] || []`: only `live` and `offline` keys exist
(in particular `favorites` yields the empty list). -/
def byStatusLookup (idx : FilterIndex) (f : String) : List Nat :=
  match f with
  | "live" => idx.byStatusLive
  | "offline" => idx.byStatusOffline
  | _ => []

/-- One step of `quickFilter`'s index narrowing: on the first active
dimension take its list, afterwards intersect
(`[...indices].filter(i => dim.includes(i))`). -/
def narrow (st : List Nat × Bool) (dim : List Nat) : List Nat × Bool :=
  if st.2 then (dim, false)
  else (st.1.filter (fun i => decide (i ∈ dim)), false)

/-- One guarded narrowing stage of `quickFilter`
(`if (this.filters.X !== 'all') { ...narrow... }`). -/
def dimStep (active : Bool) (st : List Nat × Bool) (dim : List Nat) :
    List Nat × Bool :=
  if active then narrow st dim else st

/-- `Array.from(indices).map(i => streamers[i])`, with the
`firstFilter`-still-set fallback `streamers.map((_, i) => i)`. -/
def materialize (l : List Streamer) (st : List Nat × Bool) : List Streamer :=
  (if st.2 then l.enum.map (fun x => x.1) else st.1).filterMap (fun i => l[i]?)

/-- The index-narrowing part of `quickFilter`: the `indices` set built over
the three indexable dimensions (status, then category, then viewers) with
the `firstFilter` flag, then materialised into candidate streamers. -/
def quickCandidates (fm : FM) (l : List Streamer) (idx : FilterIndex) :
    List Streamer :=
  let st1 := dimStep (fm.filters.status != "all") ([], true)
      (byStatusLookup idx fm.filters.status)
  let st2 := dimStep (fm.filters.category != "all") st1
      (idx.byCategory fm.filters.category)
  let st3 := dimStep (fm.filters.viewers != "all") st2
      (idx.byViewerRange fm.filters.viewers)
  materialize l st3

/-- `FilterManager.quickFilter`: narrow by the indexable dimensions,
materialise the candidates, then run the non-indexable filters (search,
duration, language) and the sort; without an index, fall back to
`applyFilters`. -/
def quickFilter (fm : FM) (now : Nat) (l : List Streamer)
    (idx? : Option FilterIndex) : List Streamer :=
  match idx? with
  | none => applyFilters fm now l
  | some idx =>
    applySorting fm now
      (applyLanguageFilter fm.filters.language
        (applyDurationFilter fm.filters.duration now
          (applySearchFilter fm.filters.search (quickCandidates fm l idx))))

lemma idxWhere_cands_aux (p : Streamer → Bool) :
    ∀ (l pre : List Streamer),
      (((l.enumFrom pre.length).filter (fun x => p x.2)).map
          (fun x => x.1)).filterMap (fun i => (pre ++ l)[i]?) = l.filter p := by
  intro l
  induction l with
  | nil => intro pre; simp
  | cons a t ih =>
      intro pre
      have hget : (pre ++ a :: t)[pre.length]? = some a := by
        rw [List.getElem?_append_right (Nat.le_refl _)]
        simp
      have hrest : pre ++ a :: t = (pre ++ [a]) ++ t := by simp
      have hlen : pre.length + 1 = (pre ++ [a]).length := by simp
      simp only [List.enumFrom_cons, List.filter_cons]
      by_cases hp : p a
      · simp only [hp, if_pos, List.map_cons, List.filterMap_cons, hget]
        rw [hlen, hrest, ih (pre ++ [a])]
      · simp only [hp, Bool.false_eq_true, if_neg, not_false_iff]
        rw [hlen, hrest, ih (pre ++ [a])]

/-- Materialising the positions `idxWhere p l` out of `l` yields exactly
`l.filter p`. -/
lemma idxWhere_cands (p : Streamer → Bool) (l : List Streamer) :
    (idxWhere p l).filterMap (fun i => l[i]?) = l.filter p := by
  have h := idxWhere_cands_aux p l []
  simpa [idxWhere, List.enum] using h

lemma mem_idxWhere (q : Streamer → Bool) (l : List Streamer) (i : Nat)
    (a : Streamer) (ha : l[i]? = some a) :
    (i ∈ idxWhere q l) ↔ q a = true := by
  unfold idxWhere
  simp only [List.mem_map, List.mem_filter]
  constructor
  · rintro ⟨⟨j, b⟩, ⟨hmem, hq⟩, rfl⟩
    have hb : l[j]? = some b := by
      simpa using List.mk_mem_enum_iff_getElem?.mp hmem
    rw [ha] at hb
    cases hb
    exact hq
  · intro hq
    refine ⟨(i, a), ⟨List.mk_mem_enum_iff_getElem?.mpr (by simpa using ha), hq⟩, rfl⟩

/-- Index intersection (`filter(i => other.includes(i))`) computes the
conjunction of the two membership conditions. -/
lemma idxWhere_inter (p q : Streamer → Bool) (l : List Streamer) :
    (idxWhere p l).filter (fun i => decide (i ∈ idxWhere q l)) =
      idxWhere (fun s => p s && q s) l := by
  have hp : idxWhere p l =
      (l.enum.filter (fun x => p x.2)).map (fun x => x.1) := rfl
  have hpq : idxWhere (fun s => p s && q s) l =
      (l.enum.filter (fun x => p x.2 && q x.2)).map (fun x => x.1) := rfl
  rw [hp, hpq, List.filter_map, List.filter_filter]
  apply congrArg (List.map _)
  apply List.filter_congr
  rintro ⟨i, a⟩ hmem
  have ha : l[i]? = some a := by
    simpa using List.mk_mem_enum_iff_getElem?.mp hmem
  by_cases hq : q a = true
  · simp only [Function.comp, hq, Bool.and_true]
    simp [(mem_idxWhere q l i a ha).mpr hq, Bool.and_comm]
  · have hnot : ¬ (i ∈ idxWhere q l) :=
      fun hmm => hq ((mem_idxWhere q l i a ha).mp hmm)
    simp [Function.comp, hnot, Bool.eq_false_iff.mpr hq]

/-- The no-active-dimension fallback (`streamers.map((_, i) => i)`)
materialises the whole list. -/
lemma idxAll_cands (l : List Streamer) :
    (l.enum.map (fun x => x.1)).filterMap (fun i => l[i]?) = l := by
  have h : l.enum.map (fun x => x.1) = idxWhere (fun _ => true) l := by
    unfold idxWhere
    rw [List.filter_true]
  rw [h, idxWhere_cands, List.filter_true]

lemma applyStatusFilter_all (l : List Streamer) :
    applyStatusFilter "all" l = l := rfl

lemma applyViewerFilter_all (l : List Streamer) :
    applyViewerFilter "all" l = l := by simp [applyViewerFilter]

lemma applyCategoryFilter_all (l : List Streamer) :
    applyCategoryFilter "all" l = l := by simp [applyCategoryFilter]

lemma narrow_first (d : List Nat) : narrow ([], true) d = (d, false) := rfl

lemma narrow_next (x : List Nat) (d : List Nat) :
    narrow (x, false) d = (x.filter (fun i => decide (i ∈ d)), false) := rfl

lemma vIdx1 : (fun s : Streamer => decide (s.viewers ≤ 100)) =
    (fun s : Streamer => viewerPred "0-100" s.viewers) := by
  funext s; rw [viewerPred_b1]

lemma vIdx2 : (fun s : Streamer =>
      !decide (s.viewers ≤ 100) && decide (s.viewers ≤ 500)) =
    (fun s : Streamer => viewerPred "100-500" s.viewers) := by
  funext s
  rw [viewerPred_b2]
  by_cases h1 : s.viewers ≤ 100
  · have h3 : ¬ (100 < s.viewers) := by omega
    simp [h1, h3]
  · have h3 : 100 < s.viewers := by omega
    by_cases h2 : s.viewers ≤ 500 <;> simp [h1, h2, h3]

lemma vIdx3 : (fun s : Streamer =>
      !decide (s.viewers ≤ 500) && decide (s.viewers ≤ 1000)) =
    (fun s : Streamer => viewerPred "500-1000" s.viewers) := by
  funext s
  rw [viewerPred_b3]
  by_cases h1 : s.viewers ≤ 500
  · have h3 : ¬ (500 < s.viewers) := by omega
    simp [h1, h3]
  · have h3 : 500 < s.viewers := by omega
    by_cases h2 : s.viewers ≤ 1000 <;> simp [h1, h2, h3]

lemma vIdx4 : (fun s : Streamer =>
      !decide (s.viewers ≤ 1000) && decide (s.viewers ≤ 5000)) =
    (fun s : Streamer => viewerPred "1000-5000" s.viewers) := by
  funext s
  rw [viewerPred_b4]
  by_cases h1 : s.viewers ≤ 1000
  · have h3 : ¬ (1000 < s.viewers) := by omega
    simp [h1, h3]
  · have h3 : 1000 < s.viewers := by omega
    by_cases h2 : s.viewers ≤ 5000 <;> simp [h1, h2, h3]

lemma vIdx5 : (fun s : Streamer => !decide (s.viewers ≤ 5000)) =
    (fun s : Streamer => viewerPred "5000+" s.viewers) := by
  funext s
  rw [viewerPred_b5]
  by_cases h1 : s.viewers ≤ 5000
  · have h3 : ¬ (5000 < s.viewers) := by omega
    simp [h1, h3]
  · have h3 : 5000 < s.viewers := by omega
    simp [h1, h3]

lemma catPred_eq (c : String) (hne : c ≠ "") (s : Streamer) :
    (catTruthy s && (s.category == some c)) = (s.category == some c) := by
  cases hcat : s.category with
  | none => simp [catTruthy, hcat]
  | some d =>
      by_cases hd : d = c
      · subst hd
        simp [catTruthy, hcat, bne, hne]
      · simp [catTruthy, hcat, hd]

/-- Per-dimension characterisation of the status dimension: either inactive
(`all`) or described by one predicate on both the index and the scan path. -/
lemma statusDimSpec (f : String)
    (hs : f = "all" ∨ f = "live" ∨ f = "offline") :
    f = "all" ∨ (f ≠ "all" ∧ ∃ p : Streamer → Bool,
      (∀ l, byStatusLookup (createFilterIndex l) f = idxWhere p l) ∧
      (∀ l, applyStatusFilter f l = l.filter p)) := by
  rcases hs with h | h | h
  · exact Or.inl h
  · refine Or.inr ⟨by simp [h], fun s => s.live, fun l => ?_, fun l => ?_⟩ <;>
      rw [h] <;> rfl
  · refine Or.inr ⟨by simp [h], fun s => !s.live, fun l => ?_, fun l => ?_⟩ <;>
      rw [h] <;> rfl

/-- Per-dimension characterisation of the viewer-range dimension. -/
lemma viewerDimSpec (r : String)
    (hv : r = "all" ∨ r = "0-100" ∨ r = "100-500" ∨ r = "500-1000" ∨
      r = "1000-5000" ∨ r = "5000+") :
    r = "all" ∨ (r ≠ "all" ∧ ∃ p : Streamer → Bool,
      (∀ l, (createFilterIndex l).byViewerRange r = idxWhere p l) ∧
      (∀ l, applyViewerFilter r l = l.filter p)) := by
  rcases hv with h | h | h | h | h | h
  · exact Or.inl h
  · refine Or.inr ⟨by simp [h], fun s => viewerPred "0-100" s.viewers,
      fun l => ?_, fun l => ?_⟩
    · rw [h]
      show idxWhere (fun s => decide (s.viewers ≤ 100)) l = _
      rw [vIdx1]
    · rw [h]
      simp [applyViewerFilter]
  · refine Or.inr ⟨by simp [h], fun s => viewerPred "100-500" s.viewers,
      fun l => ?_, fun l => ?_⟩
    · rw [h]
      show idxWhere (fun s => !decide (s.viewers ≤ 100) && decide (s.viewers ≤ 500)) l = _
      rw [vIdx2]
    · rw [h]
      simp [applyViewerFilter]
  · refine Or.inr ⟨by simp [h], fun s => viewerPred "500-1000" s.viewers,
      fun l => ?_, fun l => ?_⟩
    · rw [h]
      show idxWhere (fun s => !decide (s.viewers ≤ 500) && decide (s.viewers ≤ 1000)) l = _
      rw [vIdx3]
    · rw [h]
      simp [applyViewerFilter]
  · refine Or.inr ⟨by simp [h], fun s => viewerPred "1000-5000" s.viewers,
      fun l => ?_, fun l => ?_⟩
    · rw [h]
      show idxWhere (fun s => !decide (s.viewers ≤ 1000) && decide (s.viewers ≤ 5000)) l = _
      rw [vIdx4]
    · rw [h]
      simp [applyViewerFilter]
  · refine Or.inr ⟨by simp [h], fun s => viewerPred "5000+" s.viewers,
      fun l => ?_, fun l => ?_⟩
    · rw [h]
      show idxWhere (fun s => !decide (s.viewers ≤ 5000)) l = _
      rw [vIdx5]
    · rw [h]
      simp [applyViewerFilter]

/-- Per-dimension characterisation of the category dimension; a nonempty
category filter string is described by the same predicate on both paths. -/
lemma catDimSpec (c : String) (hc : c = "all" ∨ c ≠ "") :
    c = "all" ∨ (c ≠ "all" ∧ ∃ p : Streamer → Bool,
      (∀ l, (createFilterIndex l).byCategory c = idxWhere p l) ∧
      (∀ l, applyCategoryFilter c l = l.filter p)) := by
  by_cases hca : c = "all"
  · exact Or.inl hca
  · have hne : c ≠ "" := by
      rcases hc with h | h
      · exact absurd h hca
      · exact h
    refine Or.inr ⟨hca, fun s => s.category == some c, fun l => ?_, fun l => ?_⟩
    · show idxWhere (fun s => catTruthy s && (s.category == some c)) l = _
      exact congrArg (fun p => idxWhere p l) (funext (catPred_eq c hne))
    · simp [applyCategoryFilter, hca]

lemma dimStep_active (st : List Nat × Bool) (d : List Nat) :
    dimStep true st d = narrow st d := rfl

lemma dimStep_skip (st : List Nat × Bool) (d : List Nat) :
    dimStep false st d = st := rfl

lemma materialize_none (l : List Streamer) :
    materialize l ([], true) = l := by
  show (l.enum.map (fun x => x.1)).filterMap (fun i => l[i]?) = l
  exact idxAll_cands l

lemma materialize_some (l : List Streamer) (x : List Nat) :
    materialize l (x, false) = x.filterMap (fun i => l[i]?) := rfl

lemma andShuffle (x y z : Bool) : ((x && y) && z) = (y && (z && x)) := by
  revert x y z; decide

/-- Under valid indexable filter values, the quick path's candidate set
equals the linear scan over the three indexable dimensions. -/
lemma quickCandidates_eq (fm : FM) (l : List Streamer)
    (hs : fm.filters.status = "all" ∨ fm.filters.status = "live" ∨
      fm.filters.status = "offline")
    (hv : fm.filters.viewers = "all" ∨ fm.filters.viewers = "0-100" ∨
      fm.filters.viewers = "100-500" ∨ fm.filters.viewers = "500-1000" ∨
      fm.filters.viewers = "1000-5000" ∨ fm.filters.viewers = "5000+")
    (hc : fm.filters.category = "all" ∨ fm.filters.category ≠ "") :
    quickCandidates fm l (createFilterIndex l) =
      applyCategoryFilter fm.filters.category
        (applyViewerFilter fm.filters.viewers
          (applyStatusFilter fm.filters.status l)) := by
  rcases statusDimSpec _ hs with hS | ⟨hSne, p1, hL1, hA1⟩ <;>
    rcases catDimSpec _ hc with hC | ⟨hCne, p2, hL2, hA2⟩ <;>
      rcases viewerDimSpec _ hv with hV | ⟨hVne, p3, hL3, hA3⟩
  · have hbS : (fm.filters.status != "all") = false := by simp [hS]
    have hbC : (fm.filters.category != "all") = false := by simp [hC]
    have hbV : (fm.filters.viewers != "all") = false := by simp [hV]
    simp only [quickCandidates, hbS, hbC, hbV, dimStep_skip]
    rw [materialize_none, hS, hC, hV, applyStatusFilter_all,
      applyViewerFilter_all, applyCategoryFilter_all]
  · have hbS : (fm.filters.status != "all") = false := by simp [hS]
    have hbC : (fm.filters.category != "all") = false := by simp [hC]
    have hbV : (fm.filters.viewers != "all") = true := by
      simpa [bne_iff_ne] using hVne
    simp only [quickCandidates, hbS, hbC, hbV, dimStep_skip, dimStep_active]
    rw [hL3 l, narrow_first, materialize_some, idxWhere_cands,
      hS, hC, applyStatusFilter_all, applyCategoryFilter_all, hA3 l]
  · have hbS : (fm.filters.status != "all") = false := by simp [hS]
    have hbC : (fm.filters.category != "all") = true := by
      simpa [bne_iff_ne] using hCne
    have hbV : (fm.filters.viewers != "all") = false := by simp [hV]
    simp only [quickCandidates, hbS, hbC, hbV, dimStep_skip, dimStep_active]
    rw [hL2 l, narrow_first, materialize_some, idxWhere_cands,
      hS, hV, applyStatusFilter_all, applyViewerFilter_all, hA2 l]
  · have hbS : (fm.filters.status != "all") = false := by simp [hS]
    have hbC : (fm.filters.category != "all") = true := by
      simpa [bne_iff_ne] using hCne
    have hbV : (fm.filters.viewers != "all") = true := by
      simpa [bne_iff_ne] using hVne
    simp only [quickCandidates, hbS, hbC, hbV, dimStep_skip, dimStep_active]
    rw [hL2 l, narrow_first, hL3 l, narrow_next, idxWhere_inter,
      materialize_some, idxWhere_cands,
      hS, applyStatusFilter_all, hA3 l, hA2 (l.filter _), List.filter_filter]
  · have hbS : (fm.filters.status != "all") = true := by
      simpa [bne_iff_ne] using hSne
    have hbC : (fm.filters.category != "all") = false := by simp [hC]
    have hbV : (fm.filters.viewers != "all") = false := by simp [hV]
    simp only [quickCandidates, hbS, hbC, hbV, dimStep_skip, dimStep_active]
    rw [hL1 l, narrow_first, materialize_some, idxWhere_cands,
      hC, hV, applyViewerFilter_all, applyCategoryFilter_all, hA1 l]
  · have hbS : (fm.filters.status != "all") = true := by
      simpa [bne_iff_ne] using hSne
    have hbC : (fm.filters.category != "all") = false := by simp [hC]
    have hbV : (fm.filters.viewers != "all") = true := by
      simpa [bne_iff_ne] using hVne
    simp only [quickCandidates, hbS, hbC, hbV, dimStep_skip, dimStep_active]
    rw [hL1 l, narrow_first, hL3 l, narrow_next, idxWhere_inter,
      materialize_some, idxWhere_cands,
      hC, applyCategoryFilter_all, hA1 l, hA3 (l.filter _), List.filter_filter]
    exact List.filter_congr (fun a _ => Bool.and_comm _ _)
  · have hbS : (fm.filters.status != "all") = true := by
      simpa [bne_iff_ne] using hSne
    have hbC : (fm.filters.category != "all") = true := by
      simpa [bne_iff_ne] using hCne
    have hbV : (fm.filters.viewers != "all") = false := by simp [hV]
    simp only [quickCandidates, hbS, hbC, hbV, dimStep_skip, dimStep_active]
    rw [hL1 l, narrow_first, hL2 l, narrow_next, idxWhere_inter,
      materialize_some, idxWhere_cands,
      hV, applyViewerFilter_all, hA1 l, hA2 (l.filter _), List.filter_filter]
    exact List.filter_congr (fun a _ => Bool.and_comm _ _)
  · have hbS : (fm.filters.status != "all") = true := by
      simpa [bne_iff_ne] using hSne
    have hbC : (fm.filters.category != "all") = true := by
      simpa [bne_iff_ne] using hCne
    have hbV : (fm.filters.viewers != "all") = true := by
      simpa [bne_iff_ne] using hVne
    simp only [quickCandidates, hbS, hbC, hbV, dimStep_skip, dimStep_active]
    rw [hL1 l, narrow_first, hL2 l, narrow_next, idxWhere_inter,
      hL3 l, narrow_next, idxWhere_inter, materialize_some, idxWhere_cands,
      hA1 l, hA3 (l.filter _), List.filter_filter, hA2 (l.filter _),
      List.filter_filter]
    exact List.filter_congr (fun a _ => andShuffle _ _ _)

/-- Claim C2 (amended): the index-accelerated path agrees with the
linear-scan path for every filter configuration whose status filter is one
of `all`/`live`/`offline`, whose viewer filter is one of the six documented
values, and whose category filter is `all` or a nonempty string.  (With
status `favorites` — absent from the index — or with out-of-vocabulary
viewer values, the index lookup yields the empty narrowing while the linear
scan does not, so the unrestricted claim fails; see the counterexample.) -/
theorem quickFilter_eq_applyFilters (fm : FM) (now : Nat) (l : List Streamer)
    (hs : fm.filters.status = "all" ∨ fm.filters.status = "live" ∨
      fm.filters.status = "offline")
    (hv : fm.filters.viewers = "all" ∨ fm.filters.viewers = "0-100" ∨
      fm.filters.viewers = "100-500" ∨ fm.filters.viewers = "500-1000" ∨
      fm.filters.viewers = "1000-5000" ∨ fm.filters.viewers = "5000+")
    (hc : fm.filters.category = "all" ∨ fm.filters.category ≠ "") :
    quickFilter fm now l (some (createFilterIndex l)) =
      applyFilters fm now l := by
  simp only [quickFilter, applyFilters]
  rw [quickCandidates_eq fm l hs hv hc]

/-- A favourite streamer used by the C2 counterexample and witness. -/
def favStreamer : Streamer :=
  { name := "alice", displayName := "alice", live := true, title := ""
    viewers := 0, category := none, followers := 0, language := "en"
    streamStartTime := none, lastSeen := none, isFavorite := true }

/-- Counterexample to C2 as stated: with the `favorites` status filter the
index narrows to the empty set (`byStatus['favorites'] || []`) while the
linear scan returns the favourite, so the two paths disagree. -/
theorem quickFilter_favorites_cex :
    quickFilter
        { filters := { defaultFilters with status := "favorites" },
          sortBy := "status", sortDirection := "desc" }
        0 [favStreamer]
        (some (createFilterIndex [favStreamer])) ≠
      applyFilters
        { filters := { defaultFilters with status := "favorites" },
          sortBy := "status", sortDirection := "desc" }
        0 [favStreamer] := by
  decide

/-- Witness for the amended C2 at a concrete input. -/
theorem quickFilter_eq_applyFilters_witness :
    quickFilter
        { filters := { defaultFilters with status := "live" },
          sortBy := "status", sortDirection := "desc" }
        0 [favStreamer]
        (some (createFilterIndex [favStreamer])) =
      applyFilters
        { filters := { defaultFilters with status := "live" },
          sortBy := "status", sortDirection := "desc" }
        0 [favStreamer] :=
  quickFilter_eq_applyFilters _ 0 [favStreamer]
    (Or.inr (Or.inl rfl)) (Or.inl rfl) (Or.inl rfl)

/-! ### History Manager (`HistoryManager`): session tracking (C1, C9) -/

/-- One entry of `viewerHistory` / a session's `viewerSamples`. -/
structure ViewerSample where
  timestamp : Nat
  viewers : Nat
  deriving Repr, DecidableEq

/-- A `statusChanges` entry recorded by `recordStreamerUpdate`. -/
structure StatusChange where
  timestamp : Nat
  live : Bool
  viewers : Nat
  title : String
  category : Option String
  deriving Repr, DecidableEq

/-- A stream `Session`.  The random `id` string produced by
`generateSessionId` is never read back and is omitted.  `averageViewers`
is only written at close time; before that JavaScript leaves the property
undefined, which reads as 0 wherever it is consumed (`|| 0`). -/
structure Session where
  startTime : Nat
  endTime : Option Nat
  startViewers : Nat
  peakViewers : Nat
  endViewers : Option Nat
  title : String
  category : Option String
  viewerSamples : List ViewerSample
  duration : Nat
  averageViewers : Nat
  deriving Repr, DecidableEq

/-- The per-streamer history aggregate. -/
structure History where
  sessions : List Session
  viewerHistory : List ViewerSample
  statusChanges : List StatusChange
  lastSeen : Option Nat
  totalStreamTime : Nat
  averageViewers : Nat
  peakViewers : Nat
  streamCount : Nat
  deriving Repr, DecidableEq

/-- The freshly-created history record of `recordStreamerUpdate`. -/
def emptyHistory : History :=
  { sessions := [], viewerHistory := [], statusChanges := [], lastSeen := none
    totalStreamTime := 0, averageViewers := 0, peakViewers := 0
    streamCount := 0 }

/-- The part of a streamer snapshot that `recordStreamerUpdate` reads
(absent fields already defaulted: `viewers || 0`, `title || ''`,
`category || null`). -/
structure Snap where
  live : Bool
  viewers : Nat
  title : String
  category : Option String
  deriving Repr, DecidableEq

/-- In-place update of the last array element
(`arr[arr.length - 1] = f(...)`). -/
def modifyLast {α : Type} (f : α → α) : List α → List α
  | [] => []
  | [a] => [f a]
  | a :: b :: t => a :: modifyLast f (b :: t)

/-- `Math.round(num / den)` for non-negative operands. -/
def jsRound (num den : Nat) : Nat := (2 * num + den) / (2 * den)

/-- Does this update append a status change?  (`!lastStatus ||
lastStatus.live !== streamer.live`.) -/
def statusChangeNeeded (h : History) (live : Bool) : Bool :=
  match h.statusChanges.getLast? with
  | none => true
  | some c => c.live != live

/-- `HistoryManager.startStreamSession`. -/
def startStreamSession (h : History) (sc : StatusChange) : History :=
  { h with
    sessions := h.sessions ++ [{
      startTime := sc.timestamp, endTime := none
      startViewers := sc.viewers, peakViewers := sc.viewers
      endViewers := none, title := sc.title, category := sc.category
      viewerSamples := [ViewerSample.mk sc.timestamp sc.viewers], duration := 0
      averageViewers := 0 }]
    streamCount := h.streamCount + 1 }

/-- `reduce((sum, sample) => sum + sample.viewers, 0)`. -/
def sampleSum (l : List ViewerSample) : Nat := (l.map (fun x => x.viewers)).sum

/-- The mutation `endStreamSession` applies to the last (open) session:
record end time / end viewers / duration, then the session average over its
samples. -/
def closeSession (sc : StatusChange) (s : Session) : Session :=
  let s1 := { s with endTime := some sc.timestamp
                     endViewers := some sc.viewers
                     duration := sc.timestamp - s.startTime }
  if 0 < s1.viewerSamples.length then
    { s1 with averageViewers :=
        jsRound (sampleSum s1.viewerSamples) s1.viewerSamples.length }
  else s1

/-- `HistoryManager.updateAverageViewers`: duration-weighted average over
completed sessions. -/
def updateAverageViewers (h : History) : History :=
  if h.sessions.length = 0 then h
  else
    let completed := h.sessions.filter (fun s => s.endTime.isSome)
    if completed.length = 0 then h
    else
      let tvt := (completed.map (fun s => s.averageViewers * s.duration)).sum
      let td := (completed.map (fun s => s.duration)).sum
      if 0 < td then { h with averageViewers := jsRound tvt td } else h

/-- `HistoryManager.endStreamSession`: close the last session if it is
still open, fold its duration into `totalStreamTime`, refresh the overall
average. -/
def endStreamSession (h : History) (sc : StatusChange) : History :=
  match h.sessions.getLast? with
  | none => h
  | some last =>
    if last.endTime.isSome then h
    else
      updateAverageViewers
        { h with sessions := modifyLast (closeSession sc) h.sessions
                 totalStreamTime :=
                   h.totalStreamTime + (sc.timestamp - last.startTime) }

/-- The per-session part of `recordViewerCount`: sample at a 2-minute
cadence and track the session peak, only while the session is open. -/
def sessionAddSample (viewers ts : Nat) (cur : Session) : Session :=
  if cur.endTime.isSome then cur
  else
    let cur1 := match cur.viewerSamples.getLast? with
      | none =>
          { cur with viewerSamples := cur.viewerSamples ++ [ViewerSample.mk ts viewers] }
      | some lss =>
          if 2 * 60 * 1000 ≤ ts - lss.timestamp then
            { cur with viewerSamples := cur.viewerSamples ++ [ViewerSample.mk ts viewers] }
          else cur
    if cur1.peakViewers < viewers then { cur1 with peakViewers := viewers }
    else cur1

/-- `HistoryManager.recordViewerCount`: global 5-minute cadence series plus
the per-session update. -/
def recordViewerCount (h : History) (viewers ts : Nat) : History :=
  let h1 := match h.viewerHistory.getLast? with
    | none =>
        { h with viewerHistory := h.viewerHistory ++ [ViewerSample.mk ts viewers] }
    | some ls =>
        if 5 * 60 * 1000 ≤ ts - ls.timestamp then
          { h with viewerHistory := h.viewerHistory ++ [ViewerSample.mk ts viewers] }
        else h
  { h1 with sessions := modifyLast (sessionAddSample viewers ts) h1.sessions }

/-- The status-change record built by `recordStreamerUpdate`. -/
def mkStatusChange (s : Snap) (now : Nat) : StatusChange :=
  { timestamp := now, live := s.live, viewers := s.viewers
    title := s.title, category := s.category }

/-- The status-change / session part of `recordStreamerUpdate`: append a
status change iff the live flag changed, then open or close a session. -/
def statusStep (h : History) (s : Snap) (now : Nat) : History :=
  if statusChangeNeeded h s.live then
    let sc := mkStatusChange s now
    let h0 := { h with statusChanges := h.statusChanges ++ [sc] }
    if s.live then startStreamSession h0 sc else endStreamSession h0 sc
  else h

/-- The viewer-recording / `lastSeen` part of `recordStreamerUpdate`. -/
def viewerStep (h1 : History) (s : Snap) (now : Nat) : History :=
  if s.live then
    let hv := recordViewerCount h1 s.viewers now
    { hv with lastSeen := some now }
  else if h1.lastSeen.isNone then { h1 with lastSeen := some now } else h1

/-- The all-time peak update of `recordStreamerUpdate`
(`if (streamer.viewers > history.peakViewers)`). -/
def peakStep (h2 : History) (v : Nat) : History :=
  if h2.peakViewers < v then { h2 with peakViewers := v } else h2

/-- `HistoryManager.recordStreamerUpdate` for one entity (the
`historyData` map entry is created on first use; the `isInitialized` guard
is assumed passed; the trailing save/emit have no effect on the history). -/
def recordStreamerUpdate (h : History) (s : Snap) (now : Nat) : History :=
  peakStep (viewerStep (statusStep h s now) s now) s.viewers

/-- Feed a sequence of `(snapshot, Date.now())` updates to a fresh history. -/
def runHistory (upds : List (Snap × Nat)) : History :=
  upds.foldl (fun h p => recordStreamerUpdate h p.1 p.2) emptyHistory

/-- An offline snapshot (as `transformStreamerData` produces one:
`viewers = 0`, title `Offline`, no category). -/
def offSnap : Snap := { live := false, viewers := 0, title := "Offline", category := none }

/-- A live snapshot with `v` viewers. -/
def liveSnap (v : Nat) : Snap :=
  { live := true, viewers := v, title := "", category := none }

/-- The C1 scenario: status sequence [offline, live(50), live(80), offline]. -/
def c1Run : History :=
  runHistory [(offSnap, 0), (liveSnap 50, 10), (liveSnap 80, 20), (offSnap, 30)]

/-- Counterexample to C1 as stated: the single closed session of the
[offline, live(50), live(80), offline] run does not have
`endViewers = 80`; `endStreamSession` stores the viewer count carried by
the *offline* status change (`0`), not the last live viewer value. -/
theorem history_endViewers_cex :
    c1Run.sessions.map (fun s => s.endViewers) ≠ [some 80] := by decide

/-- Claim C1 (amended): the [offline, live(50), live(80), offline] run
yields exactly one session, closed at the offline timestamp, with
`startViewers = 50`, `peakViewers = 80`, `streamCount = 1`, and
`endViewers` equal to the viewer count carried on the offline snapshot
(here 0), not the last live value. -/
theorem history_session_scenario :
    c1Run.sessions.map
        (fun s => (s.startViewers, s.peakViewers, s.endTime, s.endViewers)) =
      [(50, 80, some 30, some 0)] ∧
    c1Run.streamCount = 1 := by decide

/-! ### C9: at most one open session per entity -/

lemma modifyLast_concat {α : Type} (f : α → α) (l : List α) (a : α) :
    modifyLast f (l ++ [a]) = l ++ [f a] := by
  induction l with
  | nil => rfl
  | cons b t ih =>
      cases t with
      | nil => rfl
      | cons c t2 =>
          show b :: modifyLast f ((c :: t2) ++ [a]) = b :: ((c :: t2) ++ [f a])
          rw [ih]

lemma modifyLast_length {α : Type} (f : α → α) (l : List α) :
    (modifyLast f l).length = l.length := by
  induction l with
  | nil => rfl
  | cons b t ih =>
      cases t with
      | nil => rfl
      | cons c t2 =>
          show (b :: modifyLast f (c :: t2)).length = (b :: c :: t2).length
          simpa using ih

lemma closeSession_endTime (sc : StatusChange) (s : Session) :
    (closeSession sc s).endTime = some sc.timestamp := by
  unfold closeSession
  dsimp only
  split <;> rfl

lemma closeSession_duration (sc : StatusChange) (s : Session) :
    (closeSession sc s).duration = sc.timestamp - s.startTime := by
  unfold closeSession
  dsimp only
  split <;> rfl

lemma sessionAddSample_endTime (v ts : Nat) (cur : Session) :
    (sessionAddSample v ts cur).endTime = cur.endTime := by
  unfold sessionAddSample
  split
  · rfl
  · dsimp only
    cases hgl : cur.viewerSamples.getLast? with
    | none => simp [apply_ite (fun s : Session => s.endTime)]
    | some lss => simp [apply_ite (fun s : Session => s.endTime)]

lemma updateAvg_frame (h : History) :
    (updateAverageViewers h).sessions = h.sessions ∧
    (updateAverageViewers h).statusChanges = h.statusChanges ∧
    (updateAverageViewers h).totalStreamTime = h.totalStreamTime ∧
    (updateAverageViewers h).streamCount = h.streamCount := by
  unfold updateAverageViewers
  split
  · exact ⟨rfl, rfl, rfl, rfl⟩
  · dsimp only
    split
    · exact ⟨rfl, rfl, rfl, rfl⟩
    · split <;> exact ⟨rfl, rfl, rfl, rfl⟩

lemma recordVC_frame (h : History) (v ts : Nat) :
    (recordViewerCount h v ts).sessions =
      modifyLast (sessionAddSample v ts) h.sessions ∧
    (recordViewerCount h v ts).statusChanges = h.statusChanges ∧
    (recordViewerCount h v ts).totalStreamTime = h.totalStreamTime ∧
    (recordViewerCount h v ts).streamCount = h.streamCount := by
  unfold recordViewerCount
  split
  · exact ⟨rfl, rfl, rfl, rfl⟩
  · split <;> exact ⟨rfl, rfl, rfl, rfl⟩

/-- Number of open (`endTime = null`) sessions. -/
def openCount (h : History) : Nat :=
  (h.sessions.filter (fun s => s.endTime.isNone)).length

/-- The live flag of the most recent recorded status change
(`false` when none exists). -/
def lastLive (h : History) : Bool :=
  match h.statusChanges.getLast? with
  | some c => c.live
  | none => false

/-- The inductive invariant: every session except possibly the last is
closed, and the last session can only be open while the most recent
status change is live. -/
def histInv (h : History) : Prop :=
  (∀ s ∈ h.sessions.dropLast, s.endTime.isSome) ∧
  (∀ s, h.sessions.getLast? = some s → s.endTime = none → lastLive h = true)

lemma histInv_empty : histInv emptyHistory := by
  constructor
  · intro s hs
    simp [emptyHistory] at hs
  · intro s hs
    simp [emptyHistory] at hs

lemma lastLive_false_of_change (h : History)
    (hch : statusChangeNeeded h true = true) : lastLive h = false := by
  unfold statusChangeNeeded at hch
  unfold lastLive
  cases hml : h.statusChanges.getLast? with
  | none => rfl
  | some c =>
      rw [hml] at hch
      dsimp only at hch ⊢
      cases hc : c.live
      · rfl
      · rw [hc] at hch
        simp at hch

lemma all_closed (h : History) (hinv : histInv h)
    (hlast : ∀ sess, h.sessions.getLast? = some sess → sess.endTime.isSome) :
    ∀ x ∈ h.sessions, x.endTime.isSome := by
  rcases List.eq_nil_or_concat' h.sessions with hnil | ⟨l2, b, hconcat⟩
  · intro x hx
    rw [hnil] at hx
    simp at hx
  · intro x hx
    rw [hconcat] at hx
    rcases List.mem_append.mp hx with hx2 | hx2
    · have := hinv.1 x
      rw [hconcat, List.dropLast_concat] at this
      exact this hx2
    · have hb : x = b := by simpa using hx2
      subst hb
      exact hlast x (by rw [hconcat, List.getLast?_concat])

lemma openCount_le_one (h : History) (hinv : histInv h) : openCount h ≤ 1 := by
  unfold openCount
  rcases List.eq_nil_or_concat' h.sessions with hnil | ⟨l2, b, hconcat⟩
  · rw [hnil]
    simp
  · rw [hconcat, List.filter_append]
    have hl2 : l2.filter (fun s => s.endTime.isNone) = [] := by
      apply List.filter_eq_nil_iff.mpr
      intro x hx
      have h2 : x.endTime.isSome = true := by
        have := hinv.1 x
        rw [hconcat, List.dropLast_concat] at this
        exact this hx
      cases hx2 : x.endTime with
      | none => rw [hx2] at h2; simp at h2
      | some e => simp [hx2]
    rw [hl2]
    simp only [List.nil_append]
    cases hb : (b.endTime.isNone : Bool) <;> simp [List.filter, hb]

/-- `histInv` only looks at `sessions` and `statusChanges`. -/
lemma histInv_congr (h h2 : History) (hs : h2.sessions = h.sessions)
    (hc : h2.statusChanges = h.statusChanges) (hinv : histInv h) :
    histInv h2 := by
  unfold histInv lastLive at hinv ⊢
  rw [hs, hc]
  exact hinv

lemma histInv_of_modifyLast (h h2 : History) (f : Session → Session)
    (hs : h2.sessions = modifyLast f h.sessions)
    (hc : h2.statusChanges = h.statusChanges)
    (hf : ∀ s, (f s).endTime = s.endTime)
    (hinv : histInv h) : histInv h2 := by
  rcases List.eq_nil_or_concat' h.sessions with hnil | ⟨l2, b, hconcat⟩
  · constructor
    · intro s hsmem
      rw [hs, hnil] at hsmem
      simp [modifyLast] at hsmem
    · intro s hsl
      rw [hs, hnil] at hsl
      simp [modifyLast] at hsl
  · have hmod : h2.sessions = l2 ++ [f b] := by
      rw [hs, hconcat, modifyLast_concat]
    constructor
    · intro s hsmem
      rw [hmod, List.dropLast_concat] at hsmem
      have := hinv.1 s
      rw [hconcat, List.dropLast_concat] at this
      exact this hsmem
    · intro s hsl hsopen
      rw [hmod, List.getLast?_concat] at hsl
      cases hsl
      have hbopen : b.endTime = none := by rw [← hf b]; exact hsopen
      have := hinv.2 b (by rw [hconcat, List.getLast?_concat]) hbopen
      unfold lastLive at this ⊢
      rw [hc]
      exact this

lemma exists_concat_of_getLast {α : Type} (l : List α) (a : α)
    (h : l.getLast? = some a) : ∃ l2, l = l2 ++ [a] := by
  rcases List.eq_nil_or_concat' l with rfl | ⟨l2, b, rfl⟩
  · simp at h
  · rw [List.getLast?_concat] at h
    cases h
    exact ⟨l2, rfl⟩

lemma lastLive_concat (h : History) (sc : StatusChange) :
    lastLive { h with statusChanges := h.statusChanges ++ [sc] } = sc.live := by
  unfold lastLive
  dsimp only
  rw [List.getLast?_concat]

lemma startStream_statusChanges (h : History) (sc : StatusChange) :
    (startStreamSession h sc).statusChanges = h.statusChanges := rfl

lemma histInv_start_concat (h : History) (sc : StatusChange)
    (hlv : sc.live = true) (hinv : histInv h)
    (hclosed : ∀ sess, h.sessions.getLast? = some sess → sess.endTime.isSome) :
    histInv (startStreamSession
      { h with statusChanges := h.statusChanges ++ [sc] } sc) := by
  constructor
  · intro x hx
    have hx2 : x ∈ h.sessions := by
      have hdl : (startStreamSession
          { h with statusChanges := h.statusChanges ++ [sc] } sc).sessions =
          h.sessions ++ [_] := rfl
      rw [hdl, List.dropLast_concat] at hx
      exact hx
    exact all_closed h hinv hclosed x hx2
  · intro x hxl hxopen
    have hll : lastLive (startStreamSession
        { h with statusChanges := h.statusChanges ++ [sc] } sc) = sc.live := by
      unfold lastLive startStreamSession
      dsimp only
      rw [List.getLast?_concat]
    rw [hll, hlv]

lemma histInv_endStream_concat (h : History) (sc : StatusChange)
    (hinv : histInv h) :
    histInv (endStreamSession
      { h with statusChanges := h.statusChanges ++ [sc] } sc) := by
  unfold endStreamSession
  dsimp only
  cases hml : h.sessions.getLast? with
  | none =>
      dsimp only
      constructor
      · exact hinv.1
      · intro x hxl
        dsimp only at hxl
        rw [hml] at hxl
        cases hxl
  | some last =>
      dsimp only
      by_cases hcl : last.endTime.isSome = true
      · rw [if_pos hcl]
        constructor
        · exact hinv.1
        · intro x hxl hxopen
          dsimp only at hxl
          rw [hml] at hxl
          cases hxl
          rw [hxopen] at hcl
          simp at hcl
      · rw [if_neg hcl]
        rcases exists_concat_of_getLast _ _ hml with ⟨l2, hdecomp⟩
        apply histInv_congr
          { h with sessions := l2 ++ [closeSession sc last]
                   statusChanges := h.statusChanges ++ [sc] }
        · rw [(updateAvg_frame _).1]
          dsimp only
          rw [hdecomp, modifyLast_concat]
        · rw [(updateAvg_frame _).2.1]
        · constructor
          · intro x hx
            dsimp only at hx
            rw [List.dropLast_concat] at hx
            have := hinv.1 x
            rw [hdecomp, List.dropLast_concat] at this
            exact this hx
          · intro x hxl hxopen
            dsimp only at hxl
            rw [List.getLast?_concat] at hxl
            cases hxl
            rw [closeSession_endTime] at hxopen
            cases hxopen

lemma histInv_statusStep (h : History) (s : Snap) (now : Nat)
    (hinv : histInv h) : histInv (statusStep h s now) := by
  unfold statusStep
  by_cases hch : statusChangeNeeded h s.live = true
  · rw [if_pos hch]
    dsimp only
    cases hl : s.live
    · rw [if_neg Bool.false_ne_true]
      exact histInv_endStream_concat h _ hinv
    · rw [if_pos rfl]
      rw [hl] at hch
      have hlast : lastLive h = false := lastLive_false_of_change h hch
      apply histInv_start_concat h _ (by simp [mkStatusChange, hl]) hinv
      intro sess hsl
      cases hopen : sess.endTime with
      | none =>
          have := hinv.2 sess hsl hopen
          rw [hlast] at this
          cases this
      | some e => rfl
  · rw [if_neg hch]
    exact hinv

lemma histInv_viewerStep (h1 : History) (s : Snap) (now : Nat)
    (hinv : histInv h1) : histInv (viewerStep h1 s now) := by
  unfold viewerStep
  cases hl : s.live
  · rw [if_neg Bool.false_ne_true]
    split
    · exact hinv
    · exact hinv
  · rw [if_pos rfl]
    exact histInv_of_modifyLast h1 _ (sessionAddSample s.viewers now)
      (recordVC_frame h1 s.viewers now).1 (recordVC_frame h1 s.viewers now).2.1
      (sessionAddSample_endTime s.viewers now) hinv

lemma histInv_peakStep (h2 : History) (v : Nat) (hinv : histInv h2) :
    histInv (peakStep h2 v) := by
  unfold peakStep
  split
  · exact hinv
  · exact hinv

lemma histInv_record (h : History) (s : Snap) (now : Nat)
    (hinv : histInv h) : histInv (recordStreamerUpdate h s now) :=
  histInv_peakStep _ _ (histInv_viewerStep _ _ _ (histInv_statusStep _ _ _ hinv))

lemma histInv_foldl (upds : List (Snap × Nat)) :
    ∀ h, histInv h →
      histInv (upds.foldl (fun h p => recordStreamerUpdate h p.1 p.2) h) := by
  induction upds with
  | nil => intro h hinv; exact hinv
  | cons u rest ih =>
      intro h hinv
      exact ih _ (histInv_record h u.1 u.2 hinv)

lemma histInv_run (upds : List (Snap × Nat)) : histInv (runHistory upds) :=
  histInv_foldl upds emptyHistory histInv_empty

lemma peakStep_frame (h2 : History) (v : Nat) :
    (peakStep h2 v).sessions = h2.sessions ∧
    (peakStep h2 v).totalStreamTime = h2.totalStreamTime ∧
    (peakStep h2 v).streamCount = h2.streamCount := by
  unfold peakStep
  split <;> exact ⟨rfl, rfl, rfl⟩

lemma viewerStep_frame (h1 : History) (s : Snap) (now : Nat) :
    (viewerStep h1 s now).streamCount = h1.streamCount ∧
    (viewerStep h1 s now).sessions.length = h1.sessions.length ∧
    (viewerStep h1 s now).totalStreamTime = h1.totalStreamTime := by
  unfold viewerStep
  cases hl : s.live
  · rw [if_neg Bool.false_ne_true]
    split <;> exact ⟨rfl, rfl, rfl⟩
  · rw [if_pos rfl]
    refine ⟨(recordVC_frame h1 s.viewers now).2.2.2, ?_,
      (recordVC_frame h1 s.viewers now).2.2.1⟩
    show (recordViewerCount h1 s.viewers now).sessions.length = _
    rw [(recordVC_frame h1 s.viewers now).1, modifyLast_length]

lemma viewerStep_offline (h1 : History) (s : Snap) (now : Nat)
    (hl : s.live = false) :
    (viewerStep h1 s now).sessions = h1.sessions ∧
    (viewerStep h1 s now).totalStreamTime = h1.totalStreamTime := by
  unfold viewerStep
  rw [hl, if_neg Bool.false_ne_true]
  split <;> exact ⟨rfl, rfl⟩

lemma endStream_frame (h : History) (sc : StatusChange) :
    (endStreamSession h sc).streamCount = h.streamCount ∧
    (endStreamSession h sc).sessions.length = h.sessions.length ∧
    (endStreamSession h sc).statusChanges = h.statusChanges := by
  unfold endStreamSession
  cases hml : h.sessions.getLast? with
  | none => exact ⟨rfl, rfl, rfl⟩
  | some last =>
      dsimp only
      by_cases hcl : last.endTime.isSome = true
      · rw [if_pos hcl]
        exact ⟨rfl, rfl, rfl⟩
      · rw [if_neg hcl]
        refine ⟨(updateAvg_frame _).2.2.2, ?_, (updateAvg_frame _).2.1⟩
        rw [(updateAvg_frame _).1]
        dsimp only
        rw [modifyLast_length]

lemma record_counts (h : History) (s : Snap) (now : Nat) :
    (recordStreamerUpdate h s now).streamCount =
      h.streamCount +
        (if statusChangeNeeded h s.live && s.live then 1 else 0) ∧
    (recordStreamerUpdate h s now).sessions.length =
      h.sessions.length +
        (if statusChangeNeeded h s.live && s.live then 1 else 0) := by
  unfold recordStreamerUpdate
  constructor
  · rw [(peakStep_frame _ _).2.2, (viewerStep_frame _ _ _).1]
    unfold statusStep
    by_cases hch : statusChangeNeeded h s.live = true
    · rw [if_pos hch]
      dsimp only
      cases hl : s.live
      · rw [if_neg Bool.false_ne_true]
        rw [hl] at hch
        simp [hch, (endStream_frame _ _).1]
      · rw [if_pos rfl]
        rw [hl] at hch
        simp [hch, startStreamSession]
    · rw [if_neg hch]
      have hf : statusChangeNeeded h s.live = false := by
        cases hb : statusChangeNeeded h s.live
        · rfl
        · exact absurd hb hch
      simp [hf]
  · rw [show (peakStep (viewerStep (statusStep h s now) s now)
        s.viewers).sessions = (viewerStep (statusStep h s now) s now).sessions
        from (peakStep_frame _ _).1,
      (viewerStep_frame _ _ _).2.1]
    unfold statusStep
    by_cases hch : statusChangeNeeded h s.live = true
    · rw [if_pos hch]
      dsimp only
      cases hl : s.live
      · rw [if_neg Bool.false_ne_true]
        rw [hl] at hch
        simp [hch, (endStream_frame _ _).2.1]
      · rw [if_pos rfl]
        rw [hl] at hch
        simp [hch, startStreamSession]
    · rw [if_neg hch]
      have hf : statusChangeNeeded h s.live = false := by
        cases hb : statusChangeNeeded h s.live
        · rfl
        · exact absurd hb hch
      simp [hf]

lemma record_closes (h : History) (s : Snap) (now : Nat) (sess : Session)
    (hch : statusChangeNeeded h s.live = true) (hl : s.live = false)
    (hml : h.sessions.getLast? = some sess) (hopen : sess.endTime = none) :
    ∃ cs, (recordStreamerUpdate h s now).sessions.getLast? = some cs ∧
      cs.endTime = some now ∧ cs.duration = now - sess.startTime ∧
      (recordStreamerUpdate h s now).totalStreamTime =
        h.totalStreamTime + (now - sess.startTime) := by
  have hstep : (statusStep h s now).sessions =
      modifyLast (closeSession (mkStatusChange s now)) h.sessions ∧
      (statusStep h s now).totalStreamTime =
        h.totalStreamTime + (now - sess.startTime) := by
    unfold statusStep
    rw [if_pos hch]
    dsimp only
    rw [hl, if_neg Bool.false_ne_true]
    unfold endStreamSession
    dsimp only
    rw [hml]
    dsimp only
    rw [if_neg (by rw [hopen]; simp)]
    constructor
    · rw [(updateAvg_frame _).1]
    · rw [(updateAvg_frame _).2.2.1]
      dsimp only
      simp [mkStatusChange]
  rcases exists_concat_of_getLast _ _ hml with ⟨l2, hdecomp⟩
  unfold recordStreamerUpdate
  refine ⟨closeSession (mkStatusChange s now) sess, ?_, ?_, ?_, ?_⟩
  · rw [(peakStep_frame _ _).1, (viewerStep_offline _ s now hl).1, hstep.1,
      hdecomp, modifyLast_concat, List.getLast?_concat]
  · rw [closeSession_endTime]
    simp [mkStatusChange]
  · rw [closeSession_duration]
    simp [mkStatusChange]
  · rw [(peakStep_frame _ _).2.1, (viewerStep_offline _ s now hl).2, hstep.2]

lemma record_close_noop (h : History) (s : Snap) (now : Nat) (sess : Session)
    (hl : s.live = false) (hml : h.sessions.getLast? = some sess)
    (hcl : sess.endTime.isSome = true) :
    (recordStreamerUpdate h s now).sessions = h.sessions ∧
    (recordStreamerUpdate h s now).totalStreamTime = h.totalStreamTime := by
  have hstep : (statusStep h s now).sessions = h.sessions ∧
      (statusStep h s now).totalStreamTime = h.totalStreamTime := by
    unfold statusStep
    by_cases hch : statusChangeNeeded h s.live = true
    · rw [if_pos hch]
      dsimp only
      rw [hl, if_neg Bool.false_ne_true]
      unfold endStreamSession
      dsimp only
      rw [hml]
      dsimp only
      rw [if_pos hcl]
      exact ⟨rfl, rfl⟩
    · rw [if_neg hch]
      exact ⟨rfl, rfl⟩
  unfold recordStreamerUpdate
  constructor
  · rw [(peakStep_frame _ _).1, (viewerStep_offline _ s now hl).1, hstep.1]
  · rw [(peakStep_frame _ _).2.1, (viewerStep_offline _ s now hl).2, hstep.2]

/-- Claim C9: every history reachable by `recordStreamerUpdate` steps from
a fresh record has at most one open (`endTime = null`) session; a session
is opened exactly on an offline→live status change (`streamCount` and the
session list grow by one then and only then); a live→offline change closes
the open session, setting `endTime = now`, `duration = endTime − startTime`
and folding the duration into `totalStreamTime`; and an already-closed last
session is never closed again (the step leaves sessions and
`totalStreamTime` untouched on a further offline update). -/
theorem history_open_session_invariant :
    (∀ upds : List (Snap × Nat), openCount (runHistory upds) ≤ 1) ∧
    (∀ (h : History) (s : Snap) (now : Nat),
      (recordStreamerUpdate h s now).streamCount =
        h.streamCount +
          (if statusChangeNeeded h s.live && s.live then 1 else 0) ∧
      (recordStreamerUpdate h s now).sessions.length =
        h.sessions.length +
          (if statusChangeNeeded h s.live && s.live then 1 else 0)) ∧
    (∀ (h : History) (s : Snap) (now : Nat) (sess : Session),
      statusChangeNeeded h s.live = true → s.live = false →
      h.sessions.getLast? = some sess → sess.endTime = none →
      ∃ cs, (recordStreamerUpdate h s now).sessions.getLast? = some cs ∧
        cs.endTime = some now ∧ cs.duration = now - sess.startTime ∧
        (recordStreamerUpdate h s now).totalStreamTime =
          h.totalStreamTime + (now - sess.startTime)) ∧
    (∀ (h : History) (s : Snap) (now : Nat) (sess : Session),
      s.live = false → h.sessions.getLast? = some sess →
      sess.endTime.isSome = true →
      (recordStreamerUpdate h s now).sessions = h.sessions ∧
      (recordStreamerUpdate h s now).totalStreamTime = h.totalStreamTime) :=
  ⟨fun upds => openCount_le_one _ (histInv_run upds),
   record_counts, record_closes, record_close_noop⟩

/-- The open session produced by a single live update at t = 10 with 50
viewers. -/
def witSession : Session :=
  { startTime := 10, endTime := none, startViewers := 50, peakViewers := 50
    endViewers := none, title := "", category := none
    viewerSamples := [ViewerSample.mk 10 50], duration := 0
    averageViewers := 0 }

/-- `witSession` closed by the offline update at t = 30. -/
def witSessionClosed : Session :=
  closeSession (mkStatusChange offSnap 30) witSession

/-- Witness for C9 at concrete inputs. -/
theorem history_open_session_invariant_witness :
    openCount (runHistory [(liveSnap 50, 10), (offSnap, 30)]) ≤ 1 ∧
    (∃ cs, (recordStreamerUpdate (runHistory [(liveSnap 50, 10)])
        offSnap 30).sessions.getLast? = some cs ∧
      cs.endTime = some 30 ∧ cs.duration = 30 - witSession.startTime ∧
      (recordStreamerUpdate (runHistory [(liveSnap 50, 10)])
          offSnap 30).totalStreamTime =
        (runHistory [(liveSnap 50, 10)]).totalStreamTime +
          (30 - witSession.startTime)) ∧
    (recordStreamerUpdate (runHistory [(liveSnap 50, 10), (offSnap, 30)])
        offSnap 40).sessions =
      (runHistory [(liveSnap 50, 10), (offSnap, 30)]).sessions := by
  refine ⟨history_open_session_invariant.1 _, ?_, ?_⟩
  · exact history_open_session_invariant.2.2.1
      (runHistory [(liveSnap 50, 10)]) offSnap 30 witSession
      (by decide) rfl (by decide) rfl
  · exact (history_open_session_invariant.2.2.2
      (runHistory [(liveSnap 50, 10), (offSnap, 30)]) offSnap 40
      witSessionClosed rfl (by decide) (by decide)).1

/-! ### C7: `RateLimiter.wait` sliding-window admission -/

/-- `this.requests = this.requests.filter(time => now - time < windowMs)`. -/
def purgeReqs (w now : Nat) (reqs : List Nat) : List Nat :=
  reqs.filter (fun t => decide (now - t < w))

/-- `Math.min(...requests)` (unreachable on `[]` when `maxRequests > 0`). -/
def listMin : List Nat → Nat
  | [] => 0
  | a :: t => t.foldl Nat.min a

/-- Result of one `RateLimiter.wait` entry: either the caller is admitted
(its timestamp pushed) or it must sleep `waitTime` and re-enter; in both
cases the purged request list is persisted. -/
inductive WaitOutcome where
  | admitted (reqs : List Nat)
  | delayed (reqs : List Nat) (waitTime : Nat)
  deriving Repr, DecidableEq

/-- One entry into `RateLimiter.wait` at time `now`. -/
def rlWait (maxR w : Nat) (reqs : List Nat) (now : Nat) : WaitOutcome :=
  let active := purgeReqs w now reqs
  if maxR ≤ active.length then
    .delayed active (w - (now - listMin active))
  else .admitted (active ++ [now])

/-- Sequential driver: feed the limiter a monotone list of entry times and
collect the admitted times.  A delayed caller sleeps and re-enters; in this
single-threaded model its retry appears as a later entry of the list, so
`runRL` records no admission for the delayed entry itself. -/
def runRL (maxR w : Nat) (reqs : List Nat) : List Nat → List Nat
  | [] => []
  | t :: ts =>
    match rlWait maxR w reqs t with
    | .admitted r => t :: runRL maxR w r ts
    | .delayed r _ => runRL maxR w r ts

/-- Membership of time `t` in the rolling window `(T − w, T]`. -/
def inWindow (w T t : Nat) : Bool := decide (t ≤ T) && decide (T - t < w)

lemma purge_purge (w t1 t2 : Nat) (h12 : t1 ≤ t2) (l : List Nat) :
    purgeReqs w t2 (purgeReqs w t1 l) = purgeReqs w t2 l := by
  unfold purgeReqs
  rw [List.filter_filter]
  apply List.filter_congr
  intro a _
  by_cases h2 : t2 - a < w
  · have h1 : t1 - a < w := by omega
    simp [h1, h2]
  · simp [h2]

lemma runRL_window_aux (maxR w : Nat) (hw : 0 < w) :
    ∀ (calls : List Nat) (tcur : Nat) (past : List Nat),
      List.Sorted (· ≤ ·) (tcur :: calls) →
      (∀ T, past.countP (inWindow w T) ≤ maxR) →
      ∀ T, ((past ++ runRL maxR w (purgeReqs w tcur past) calls).countP
          (inWindow w T)) ≤ maxR := by
  intro calls
  induction calls with
  | nil =>
      intro tcur past hsort hpast T
      simpa using hpast T
  | cons t ts ih =>
      intro tcur past hsort hpast T
      have htc : tcur ≤ t := (List.sorted_cons.mp hsort).1 t (by simp)
      have hsort2 : List.Sorted (· ≤ ·) (t :: ts) :=
        (List.sorted_cons.mp hsort).2
      show ((past ++ runRL maxR w (purgeReqs w tcur past) (t :: ts)).countP
          (inWindow w T)) ≤ maxR
      unfold runRL rlWait
      dsimp only
      rw [purge_purge w tcur t htc past]
      by_cases hfull : maxR ≤ (purgeReqs w t past).length
      · rw [if_pos hfull]
        dsimp only
        exact ih t past hsort2 hpast T
      · rw [if_neg hfull]
        dsimp only
        have hstate : purgeReqs w t past ++ [t] =
            purgeReqs w t (past ++ [t]) := by
          unfold purgeReqs
          rw [List.filter_append]
          congr 1
          simp [hw]
        have hpast2 : ∀ T2, (past ++ [t]).countP (inWindow w T2) ≤ maxR := by
          intro T2
          rw [List.countP_append]
          by_cases hTt : inWindow w T2 t = true
          · have htT : t ≤ T2 ∧ T2 - t < w := by
              unfold inWindow at hTt
              simpa using hTt
            have hsub : past.countP (inWindow w T2) ≤
                (purgeReqs w t past).length := by
              rw [show (purgeReqs w t past).length =
                  past.countP (fun a => decide (t - a < w)) from
                  (List.countP_eq_length_filter _ _).symm]
              apply List.countP_mono_left
              intro a _ ha
              unfold inWindow at ha
              simp only [Bool.and_eq_true, decide_eq_true_eq] at ha ⊢
              omega
            have : past.countP (inWindow w T2) + 1 ≤ maxR := by omega
            simpa [hTt] using this
          · have hTtf : inWindow w T2 t = false := by
              cases hb : inWindow w T2 t
              · rfl
              · exact absurd hb hTt
            simp only [List.countP_cons, List.countP_nil, hTtf]
            simpa using hpast T2
        have := ih t (past ++ [t]) hsort2 hpast2 T
        rw [hstate]
        calc ((past ++ (t :: runRL maxR w (purgeReqs w t (past ++ [t])) ts)).countP
              (inWindow w T))
            = (((past ++ [t]) ++
                runRL maxR w (purgeReqs w t (past ++ [t])) ts).countP
              (inWindow w T)) := by rw [List.append_assoc]; rfl
          _ ≤ maxR := this

/-- Claim C7: for every monotone sequence of entry times, the limiter
admits at most `maxRequests` calls inside any rolling window `(T − w, T]`;
and concretely with N = 10, W = 1000: after ten admissions at t = 0 the
11th entry at any `t < 1000` is delayed by exactly `1000 − t` (so it is not
admitted before t = 1000, the wait being `window − (now − oldest)` after
dropping timestamps older than `now − window`), and the retry at t = 1000
is admitted. -/
theorem rateLimiter_sliding_window (maxR w : Nat) (hw : 0 < w)
    (calls : List Nat) (hs : List.Sorted (· ≤ ·) calls) :
    (∀ T, (runRL maxR w [] calls).countP (inWindow w T) ≤ maxR) ∧
    rlWait 10 1000 (List.replicate 10 0) 0 =
      .delayed (List.replicate 10 0) 1000 ∧
    (∀ t2, t2 < 1000 → rlWait 10 1000 (List.replicate 10 0) t2 =
      .delayed (List.replicate 10 0) (1000 - t2)) ∧
    runRL 10 1000 [] (List.replicate 10 0 ++ [0]) = List.replicate 10 0 ∧
    runRL 10 1000 [] (List.replicate 10 0 ++ [0, 1000]) =
      List.replicate 10 0 ++ [1000] := by
  refine ⟨?_, by decide, ?_, by decide, by decide⟩
  · intro T
    have hsort : List.Sorted (· ≤ ·) (0 :: calls) :=
      List.sorted_cons.mpr ⟨fun b _ => Nat.zero_le b, hs⟩
    have := runRL_window_aux maxR w hw calls 0 [] hsort (by intro T2; simp) T
    simpa using this
  · intro t2 ht2
    unfold rlWait
    have hact : purgeReqs 1000 t2 (List.replicate 10 0) =
        List.replicate 10 0 := by
      unfold purgeReqs
      apply List.filter_eq_self.mpr
      intro a ha
      have ha0 : a = 0 := List.eq_of_mem_replicate ha
      subst ha0
      simp
      omega
    rw [hact]
    rw [if_pos (by simp)]
    have hmin : listMin (List.replicate 10 0) = 0 := by decide
    rw [hmin]
    rfl

/-- Witness for C7 at concrete inputs. -/
theorem rateLimiter_sliding_window_witness :
    (runRL 10 1000 [] (List.replicate 10 0 ++ [0])).countP
        (inWindow 1000 0) ≤ 10 ∧
    runRL 10 1000 [] (List.replicate 10 0 ++ [0, 1000]) =
      List.replicate 10 0 ++ [1000] := by
  have h := rateLimiter_sliding_window 10 1000 (by decide)
    (List.replicate 10 0 ++ [0]) (by decide)
  exact ⟨h.1 0, h.2.2.2.2⟩

/-! ### C8: `fetchMultipleStreamers` batching -/

/-- The batch decomposition of the `for (let i = 0; i < n; i += 5)
... slice(i, i + 5)` loop in `fetchMultipleStreamers`. -/
def batches {α : Type} : List α → List (List α)
  | [] => []
  | a :: t => ((a :: t).take 5) :: batches ((a :: t).drop 5)
  termination_by l => l.length
  decreasing_by simp; omega

/-- `fetchMultipleStreamers` with the per-item fetch abstracted as
`f : α → Option β` (`Promise.allSettled` fulfilled/rejected): each batch
keeps its fulfilled results in order and they are pushed onto the running
result list.  The trailing `.filter(Boolean)` never drops a fulfilled
snapshot object (objects are truthy) and is omitted. -/
def fetchMany {α β : Type} (f : α → Option β) (l : List α) : List β :=
  (batches l).foldl (fun acc b => acc ++ b.filterMap f) []

lemma batches_cons {α : Type} (a : α) (t : List α) :
    batches (a :: t) = ((a :: t).take 5) :: batches ((a :: t).drop 5) := by
  simp [batches]

lemma batches_length {α : Type} (l : List α) :
    (batches l).length = (l.length + 4) / 5 := by
  induction l using batches.induct with
  | case1 => simp [batches]
  | case2 a t ih =>
      rw [batches_cons, List.length_cons, ih]
      simp only [List.length_drop, List.length_cons]
      omega

lemma batches_flatten {α : Type} (l : List α) : (batches l).flatten = l := by
  induction l using batches.induct with
  | case1 => simp [batches]
  | case2 a t ih =>
      rw [batches_cons, List.flatten_cons, ih, List.take_append_drop]

lemma batches_sizes {α : Type} (l : List α) :
    ∀ b ∈ batches l, b.length ≤ 5 ∧ b ≠ [] := by
  induction l using batches.induct with
  | case1 =>
      intro b hb
      simp [batches] at hb
  | case2 a t ih =>
      intro b hb
      rw [batches_cons] at hb
      rcases List.mem_cons.mp hb with rfl | hb2
      · constructor
        · exact List.length_take_le 5 (a :: t)
        · simp
      · exact ih b hb2

lemma batches_full {α : Type} (l : List α) :
    ∀ b ∈ (batches l).dropLast, b.length = 5 := by
  induction l using batches.induct with
  | case1 =>
      intro b hb
      simp [batches] at hb
  | case2 a t ih =>
      intro b hb
      rw [batches_cons] at hb
      cases hrest : batches ((a :: t).drop 5) with
      | nil => rw [hrest] at hb; cases hb
      | cons r rs =>
          rw [hrest] at hb
          rw [List.dropLast_cons_of_ne_nil (by simp)] at hb
          rcases List.mem_cons.mp hb with rfl | hb2
          · have hne : (a :: t).drop 5 ≠ [] := by
              intro hnil
              rw [hnil] at hrest
              simp [batches] at hrest
            have hlen : 5 < (a :: t).length := by
              by_contra hle
              push_neg at hle
              exact hne (List.drop_eq_nil_of_le hle)
            simp only [List.length_take]
            omega
          · rw [← hrest] at hb2
            exact ih b hb2

lemma fetchMany_foldl {α β : Type} (f : α → Option β) :
    ∀ (l : List α) (acc : List β),
      (batches l).foldl (fun acc b => acc ++ b.filterMap f) acc =
        acc ++ l.filterMap f := by
  intro l
  induction l using batches.induct with
  | case1 => intro acc; simp [batches]
  | case2 a t ih =>
      intro acc
      rw [batches_cons, List.foldl_cons, ih, List.append_assoc,
        ← List.filterMap_append, List.take_append_drop]

/-- Claim C8: the bulk fetch splits the `N` input ids into `⌈N/5⌉`
consecutive batches whose concatenation is the input, every batch has at
most 5 ids (and is nonempty), every batch except the last has exactly 5,
one item's failure only drops that item (the result is exactly
`filterMap` of the per-item fetch, concatenated in batch order), and 12
ids produce exactly 3 batches of sizes 5, 5, 2. -/
theorem fetchMany_batching {α β : Type} (f : α → Option β) (l : List α) :
    (batches l).length = (l.length + 4) / 5 ∧
    (batches l).flatten = l ∧
    (∀ b ∈ batches l, b.length ≤ 5 ∧ b ≠ []) ∧
    (∀ b ∈ (batches l).dropLast, b.length = 5) ∧
    fetchMany f l = l.filterMap f ∧
    (batches (List.range 12)).map List.length = [5, 5, 2] :=
  ⟨batches_length l, batches_flatten l, batches_sizes l, batches_full l,
   fetchMany_foldl f l [], by
    have h12 : List.range 12 = [0, 1, 2, 3, 4, 5, 6, 7, 8, 9, 10, 11] := by
      decide
    rw [h12]
    simp [batches_cons, batches]⟩

/-- Witness for C8 at a concrete input. -/
theorem fetchMany_batching_witness :
    (batches (List.range 12)).length = (12 + 4) / 5 ∧
    fetchMany some (List.range 12) = (List.range 12).filterMap some :=
  ⟨(fetchMany_batching some (List.range 12)).1,
   (fetchMany_batching some (List.range 12)).2.2.2.2.1⟩

/-! ### C3: subscriber exception isolation in the event emitters -/

/-- `FilterManager.emit`: `listeners.forEach(cb => cb(data))` with **no**
try/catch.  A throwing callback aborts the `forEach` and the exception
propagates to the publisher.  Returns (number of callbacks invoked,
propagated exception if any). -/
def fmEmit {α E : Type} (cbs : List (α → Except E Unit)) (d : α) :
    Nat × Option E :=
  match cbs with
  | [] => (0, none)
  | cb :: rest =>
    match cb d with
    | .ok _ =>
        let tail := fmEmit rest d
        (tail.1 + 1, tail.2)
    | .error e => (1, some e)

/-- `StreamerManager.emit` / `HistoryManager.emit`: each callback runs in
`try { cb(data) } catch (e) { console.error(...) }`.  Returns (number of
callbacks invoked, the logged exceptions in callback order); it has no
failure channel — emit never throws. -/
def smEmit {α E : Type} (cbs : List (α → Except E Unit)) (d : α) :
    Nat × List E :=
  match cbs with
  | [] => (0, [])
  | cb :: rest =>
    let tail := smEmit rest d
    match cb d with
    | .ok _ => (tail.1 + 1, tail.2)
    | .error e => (tail.1 + 1, e :: tail.2)

/-- The exception a callback throws on `d`, if any. -/
def errOf {α E : Type} (d : α) (cb : α → Except E Unit) : Option E :=
  match cb d with
  | .ok _ => none
  | .error e => some e

/-- Counterexample to C3 as stated: `FilterManager.emit` (unlike the other
two emitters) has no try/catch, so with subscribers [throwing, benign] only
the first is invoked (the second is never delivered to) and the exception
propagates to the publisher. -/
theorem filterManager_emit_cex :
    (fmEmit [fun _ => Except.error "boom", fun _ => Except.ok ()]
        (0 : Nat)).1 ≠ 2 ∧
    (fmEmit [fun _ => Except.error "boom", fun _ => Except.ok ()]
        (0 : Nat)).2 ≠ none := by
  constructor
  · intro h
    cases h
  · intro h
    cases h

/-- Claim C3 (amended): `StreamerManager.emit` and `HistoryManager.emit`
catch and log each subscriber exception — every subscriber is invoked, the
thrown exceptions are exactly the logged ones in order, and emit never
throws; `FilterManager.emit` does not: the first throwing subscriber stops
delivery (exactly the preceding subscribers plus the throwing one run) and
its exception propagates to the publisher. -/
theorem emit_exception_isolation {α E : Type} (d : α) :
    (∀ cbs : List (α → Except E Unit),
      (smEmit cbs d).1 = cbs.length ∧
      (smEmit cbs d).2 = cbs.filterMap (errOf d)) ∧
    (∀ (pre post : List (α → Except E Unit)) (cb : α → Except E Unit)
        (e : E), (∀ c ∈ pre, c d = Except.ok ()) → cb d = Except.error e →
      fmEmit (pre ++ cb :: post) d = (pre.length + 1, some e)) := by
  constructor
  · intro cbs
    induction cbs with
    | nil => exact ⟨rfl, rfl⟩
    | cons cb rest ih =>
        unfold smEmit
        dsimp only
        cases hcb : cb d with
        | ok u =>
            refine ⟨by rw [ih.1]; rfl, ?_⟩
            rw [ih.2]
            simp [List.filterMap_cons, errOf, hcb]
        | error e =>
            refine ⟨by rw [ih.1]; rfl, ?_⟩
            rw [ih.2]
            simp [List.filterMap_cons, errOf, hcb]
  · intro pre post cb e hok hcb
    induction pre with
    | nil =>
        simp only [List.nil_append]
        unfold fmEmit
        dsimp only
        rw [hcb]
        rfl
    | cons c rest ih =>
        have hc : c d = Except.ok () := hok c (by simp)
        show fmEmit (c :: (rest ++ cb :: post)) d = _
        unfold fmEmit
        dsimp only
        rw [hc, ih (fun x hx => hok x (by simp [hx]))]
        rfl

/-- Witness for the amended C3 at concrete inputs. -/
theorem emit_exception_isolation_witness :
    (smEmit [fun _ => Except.error "boom", fun _ => Except.ok ()]
        (0 : Nat)).1 = 2 ∧
    fmEmit ([fun _ => Except.ok ()] ++
        (fun _ => Except.error "boom") :: [fun _ => Except.ok ()])
      (0 : Nat) = (2, some "boom") := by
  constructor
  · exact ((emit_exception_isolation (0 : Nat)).1
      [fun _ => Except.error "boom", fun _ => Except.ok ()]).1
  · exact (emit_exception_isolation (0 : Nat)).2
      [fun _ => Except.ok ()] [fun _ => Except.ok ()]
      (fun _ => Except.error "boom") "boom"
      (by intro c hc; simp at hc; rw [hc]) rfl

/-! ### C4: `StorageManager` export/import round-trip -/

/-- JSON-like stored values (`localStorage` holds `JSON.stringify`d data). -/
inductive DataV where
  | vNull
  | vBool (b : Bool)
  | vNum (n : Int)
  | vStr (s : String)
  | vArr (l : List DataV)
  | vObj (l : List (String × DataV))

/-- `StorageManager` state: the in-memory favourites `Set` (insertion
order, no duplicates) plus the prefixed key/value store. -/
structure Store where
  favorites : List String
  kv : String → Option DataV

/-- `get(key, defaultValue)`. -/
def storeGet (st : Store) (key : String) (dflt : DataV) : DataV :=
  (st.kv key).getD dflt

/-- `set(key, value)`. -/
def storeSet (st : Store) (key : String) (v : DataV) : Store :=
  { st with kv := fun k => if k = key then some v else st.kv k }

/-- `Set.prototype.add` on the insertion-ordered model. -/
def jsSetAdd (l : List String) (x : String) : List String :=
  if x ∈ l then l else l ++ [x]

/-- `new Set(array)`. -/
def jsSetOf (l : List String) : List String := l.foldl jsSetAdd []

/-- `saveFavorites`: persist `Array.from(this.favorites)`. -/
def saveFavorites (st : Store) : Store :=
  storeSet st "favorites" (DataV.vArr (st.favorites.map DataV.vStr))

/-- The record built by `StorageManager.exportData`. -/
structure ExportData where
  version : String
  timestamp : Nat
  favorites : List String
  settings : DataV
  streamHistory : DataV
  notificationHistory : DataV
  filters : DataV
  theme : DataV
  viewMode : DataV
  refreshInterval : DataV

/-- `StorageManager.exportData` with its documented defaults. -/
def exportData (st : Store) (now : Nat) : ExportData :=
  { version := "4.0", timestamp := now
    favorites := st.favorites
    settings := storeGet st "settings" (DataV.vObj [])
    streamHistory := storeGet st "streamHistory" (DataV.vObj [])
    notificationHistory := storeGet st "notificationHistory" (DataV.vArr [])
    filters := storeGet st "filters" (DataV.vObj [])
    theme := storeGet st "theme" (DataV.vStr "dark")
    viewMode := storeGet st "viewMode" (DataV.vStr "grid")
    refreshInterval := storeGet st "refreshInterval" (DataV.vNum 60) }

/-- JavaScript truthiness of a stored value. -/
def jsTruthy : DataV → Bool
  | .vNull => false
  | .vBool b => b
  | .vNum n => n != 0
  | .vStr s => s != ""
  | .vArr _ => true
  | .vObj _ => true

/-- The successful body of `importData`: replace the favourites `Set` with
`new Set(data.favorites)` and persist it (`data.favorites` is a typed
array here, hence truthy — even when empty — and `Array.isArray` holds);
write `settings` only when truthy; then write every key of the `dataKeys`
list (all fields of the export record are defined). -/
def importOk (d : ExportData) (st : Store) : Store :=
  let st1 := saveFavorites { st with favorites := jsSetOf d.favorites }
  let st2 := if jsTruthy d.settings then storeSet st1 "settings" d.settings
             else st1
  let st3 := storeSet st2 "streamHistory" d.streamHistory
  let st4 := storeSet st3 "notificationHistory" d.notificationHistory
  let st5 := storeSet st4 "filters" d.filters
  let st6 := storeSet st5 "theme" d.theme
  let st7 := storeSet st6 "viewMode" d.viewMode
  storeSet st7 "refreshInterval" d.refreshInterval

/-- `StorageManager.importData`: reject a missing/falsy `version`
(`if (!data || !data.version) throw`), otherwise apply the import. -/
def importData (d : ExportData) (st : Store) : Except String Store :=
  if d.version = "" then Except.error "Invalid data format"
  else Except.ok (importOk d st)

lemma foldl_jsSetAdd (l : List String) :
    ∀ acc, l.Nodup → (∀ x ∈ l, x ∉ acc) →
      l.foldl jsSetAdd acc = acc ++ l := by
  induction l with
  | nil => intro acc _ _; simp
  | cons a t ih =>
      intro acc hnd hout
      have ha : a ∉ acc := hout a (by simp)
      show t.foldl jsSetAdd (jsSetAdd acc a) = acc ++ a :: t
      rw [show jsSetAdd acc a = acc ++ [a] from by simp [jsSetAdd, ha]]
      rw [ih (acc ++ [a]) (List.nodup_cons.mp hnd).2]
      · simp
      · intro x hx
        simp only [List.mem_append, List.mem_singleton]
        rintro (hxa | rfl)
        · exact hout x (by simp [hx]) hxa
        · exact (List.nodup_cons.mp hnd).1 hx

lemma jsSetOf_nodup (l : List String) (h : l.Nodup) : jsSetOf l = l := by
  unfold jsSetOf
  rw [foldl_jsSetAdd l [] h (by intro x _ hx; cases hx)]
  simp

lemma importOk_favorites (d : ExportData) (st : Store) :
    (importOk d st).favorites = jsSetOf d.favorites := by
  unfold importOk
  dsimp only
  split <;> rfl

lemma storeSet_ne (st : Store) (key k : String) (v : DataV) (h : k ≠ key) :
    (storeSet st key v).kv k = st.kv k := by
  simp [storeSet, h]

lemma storeSet_eq (st : Store) (key : String) (v : DataV) :
    (storeSet st key v).kv key = some v := by
  simp [storeSet]

/-- Claim C4: importing the export of a store back into it succeeds (the
export's `version` passes validation) and reproduces the watchlist (the
persisted `cachedStreamersList` key is untouched — no import path writes
it), an equal favourite set, and an equal filter configuration; the stored
stream history is also reproduced. -/
theorem storage_roundtrip (st : Store) (now : Nat)
    (hnd : st.favorites.Nodup) :
    importData (exportData st now) st =
      Except.ok (importOk (exportData st now) st) ∧
    (importOk (exportData st now) st).favorites = st.favorites ∧
    storeGet (importOk (exportData st now) st) "filters" (DataV.vObj []) =
      storeGet st "filters" (DataV.vObj []) ∧
    storeGet (importOk (exportData st now) st) "streamHistory"
        (DataV.vObj []) =
      storeGet st "streamHistory" (DataV.vObj []) ∧
    (importOk (exportData st now) st).kv "cachedStreamersList" =
      st.kv "cachedStreamersList" := by
  refine ⟨?_, ?_, ?_, ?_, ?_⟩
  · unfold importData
    rw [if_neg (by simp [exportData])]
  · rw [importOk_favorites]
    exact jsSetOf_nodup _ hnd
  · unfold importOk
    dsimp only
    unfold storeGet
    rw [storeSet_ne _ _ _ _ (by decide), storeSet_ne _ _ _ _ (by decide),
      storeSet_ne _ _ _ _ (by decide)]
    rw [show (storeSet _ "filters" (exportData st now).filters).kv "filters" =
      some (exportData st now).filters from storeSet_eq _ _ _]
    rfl
  · unfold importOk
    dsimp only
    unfold storeGet
    rw [storeSet_ne _ _ _ _ (by decide), storeSet_ne _ _ _ _ (by decide),
      storeSet_ne _ _ _ _ (by decide), storeSet_ne _ _ _ _ (by decide),
      storeSet_ne _ _ _ _ (by decide)]
    rw [show (storeSet _ "streamHistory"
        (exportData st now).streamHistory).kv "streamHistory" =
      some (exportData st now).streamHistory from storeSet_eq _ _ _]
    rfl
  · unfold importOk
    dsimp only
    rw [storeSet_ne _ _ _ _ (by decide), storeSet_ne _ _ _ _ (by decide),
      storeSet_ne _ _ _ _ (by decide), storeSet_ne _ _ _ _ (by decide),
      storeSet_ne _ _ _ _ (by decide), storeSet_ne _ _ _ _ (by decide)]
    split
    · rw [storeSet_ne _ _ _ _ (by decide)]
      unfold saveFavorites
      rw [storeSet_ne _ _ _ _ (by decide)]
    · unfold saveFavorites
      rw [storeSet_ne _ _ _ _ (by decide)]

/-- Witness for C4 at a concrete store. -/
theorem storage_roundtrip_witness :
    (importOk (exportData ⟨["alice"], fun _ => none⟩ 5)
        ⟨["alice"], fun _ => none⟩).favorites =
      (⟨["alice"], fun _ => none⟩ : Store).favorites ∧
    (importOk (exportData ⟨["alice"], fun _ => none⟩ 5)
        ⟨["alice"], fun _ => none⟩).kv "cachedStreamersList" =
      (⟨["alice"], fun _ => none⟩ : Store).kv "cachedStreamersList" :=
  ⟨(storage_roundtrip ⟨["alice"], fun _ => none⟩ 5 (by simp)).2.1,
   (storage_roundtrip ⟨["alice"], fun _ => none⟩ 5 (by simp)).2.2.2.2⟩

end KickMonitor
